import Mathlib

/-!
GateRelay: a verification development.

A shallow embedding of the TCP relay of `nathantebbs/gaterelay`
(`config.go`, `relay.go`) and theorems about its configuration validation,
admission control, statistics counters, connection handler and shutdown.

Conventions of the embedding:

* Go `int` is the 64-bit signed integer of the common platforms; the fields of
  `Config` are `Int`, and every narrowing conversion or fixed-width arithmetic
  operation of the source is written with an explicit wrap-around.
* `atomic.Int32` holds an `Int` kept in range by `wrapInt32`; `atomic.Uint64`
  holds a `Nat` kept in range by `% 2^64`.
* Goroutines are modelled by a program counter each; one `Action` of the
  scheduler runs one atomic operation of one goroutine, and supplies what the
  environment decides (the result of `Accept`, of `Dial`, of `io.Copy`, the
  clock, which ready branch a `select` takes).
-/

namespace GateRelay

/-! ## Machine integers -/

/-- Two to the power 64, the modulus of `uint64` arithmetic. -/
def two64 : Nat := 18446744073709551616

/-- Go conversion `int32(x)` of a signed integer: two's-complement wrap-around. -/
def wrapInt32 (x : Int) : Int := (x + 2147483648) % 4294967296 - 2147483648

/-- Result of an `int64` operation whose mathematical value is `x`. -/
def wrapInt64 (x : Int) : Int :=
  (x + 9223372036854775808) % 18446744073709551616 - 9223372036854775808

/-- Result of a `uint64` operation whose mathematical value is `x`. -/
def wrapUint64 (x : Nat) : Nat := x % two64

/-- The constant `time.Second`, in nanoseconds. -/
def timeSecond : Int := 1000000000

/-- The Go expression `time.Duration(secs) * time.Second`: an `int64` product. -/
def durationOfSecs (secs : Int) : Int := wrapInt64 (secs * timeSecond)

/-! ## Configuration (`config.go`) -/

/-- The Go struct `Config`. -/
structure Config where
  ListenAddr : String
  ListenPort : Int
  TargetAddr : String
  TargetPort : Int
  MaxConns : Int
  IdleTimeoutSecs : Int
  ConnectTimeoutSecs : Int
  ShutdownGraceSecs : Int
  LogLevel : String
deriving DecidableEq

/-- The function `DefaultConfig`. -/
def DefaultConfig : Config :=
  { ListenAddr := "0.0.0.0"
    ListenPort := 4000
    TargetAddr := "127.0.0.1"
    TargetPort := 5000
    MaxConns := 200
    IdleTimeoutSecs := 60
    ConnectTimeoutSecs := 5
    ShutdownGraceSecs := 10
    LogLevel := "info" }

/-- The errors `Validate` can return, one per `fmt.Errorf` call, each with the
value the format string prints. -/
inductive ValidateError
  | listenPort (got : Int)
  | targetPort (got : Int)
  | targetAddrEmpty
  | maxConns (got : Int)
  | idleTimeoutNegative
  | connectTimeoutNegative
  | shutdownGraceNegative
  | logLevel (got : String)
deriving DecidableEq

/-- The text of each error, as `fmt.Errorf` renders it. -/
def ValidateError.message : ValidateError → String
  | .listenPort got => "listen_port must be between 1 and 65535, got " ++ toString got
  | .targetPort got => "target_port must be between 1 and 65535, got " ++ toString got
  | .targetAddrEmpty => "target_addr cannot be empty"
  | .maxConns got => "max_conns must be at least 1, got " ++ toString got
  | .idleTimeoutNegative => "idle_timeout_secs cannot be negative"
  | .connectTimeoutNegative => "connect_timeout_secs cannot be negative"
  | .shutdownGraceNegative => "shutdown_grace_secs cannot be negative"
  | .logLevel got => "log_level must be one of: debug, info, warn, error; got " ++ got

/-- The map literal `validLogLevels` of `Validate`. -/
def validLogLevels : List (String × Bool) :=
  [("debug", true), ("info", true), ("warn", true), ("error", true)]

/-- Indexing a Go `map[string]bool`: the zero value `false` for a missing key. -/
def mapIndex (m : List (String × Bool)) (k : String) : Bool :=
  match m.find? (fun p => p.1 == k) with
  | some p => p.2
  | none => false

/-- The method `Config.Validate`; `none` is the `nil` error. -/
def Config.Validate (c : Config) : Option ValidateError :=
  if c.ListenPort < 1 ∨ c.ListenPort > 65535 then some (.listenPort c.ListenPort)
  else if c.TargetPort < 1 ∨ c.TargetPort > 65535 then some (.targetPort c.TargetPort)
  else if c.TargetAddr = "" then some .targetAddrEmpty
  else if c.MaxConns < 1 then some (.maxConns c.MaxConns)
  else if c.IdleTimeoutSecs < 0 then some .idleTimeoutNegative
  else if c.ConnectTimeoutSecs < 0 then some .connectTimeoutNegative
  else if c.ShutdownGraceSecs < 0 then some .shutdownGraceNegative
  else if !(mapIndex validLogLevels c.LogLevel) then some (.logLevel c.LogLevel)
  else none

/-! ## Results of a step -/

/-- What one atomic operation of a goroutine does: it completes, it cannot run
now (a blocked channel receive or `Wait`, a goroutine that has returned), or it
panics, which ends the process. -/
inductive Res (α : Type) where
  | ok (a : α)
  | blocked
  | panic (msg : String)
deriving DecidableEq

/-- Sequencing of steps: the first blocked step or panic ends the run. -/
def Res.bind {α β : Type} (x : Res α) (f : α → Res β) : Res β :=
  match x with
  | .ok a => f a
  | .blocked => .blocked
  | .panic m => .panic m

/-! ## Sockets and log -/

/-- A connection socket (`net.Conn`) as the relay sees it: how often `Close` was
called on it and the absolute deadlines passed to `SetDeadline`, oldest first,
in nanoseconds. -/
structure Sock where
  closeCalls : Nat
  deadlines : List Int
deriving DecidableEq

/-- A socket just returned by `Accept` or `Dial`. -/
def Sock.fresh : Sock := ⟨0, []⟩

/-- The call `conn.Close()`. -/
def Sock.Close (c : Sock) : Sock := { c with closeCalls := c.closeCalls + 1 }

/-- The call `conn.SetDeadline(t)`. -/
def Sock.SetDeadline (c : Sock) (t : Int) : Sock := { c with deadlines := c.deadlines ++ [t] }

/-- Levels of the `slog` calls of the relay. -/
inductive Level where
  | info
  | warn
  | error
deriving DecidableEq

/-- One record of the relay logger: level, message and the integer attributes. -/
structure LogEntry where
  level : Level
  msg : String
  attrs : List (String × Int)
deriving DecidableEq

/-! ## The relay (`relay.go`) -/

/-- The Go struct `Relay`: the listener (whether `r.listener` is non-nil and how
often it was closed), the four atomic counters, the counter of the
`sync.WaitGroup`, whether the channel `shutdown` is closed, and the records
written through `r.logger`. The configuration is passed separately. -/
structure Relay where
  listenerBound : Bool
  listenerCloseCalls : Nat
  activeConns : Int
  totalConns : Nat
  bytesRx : Nat
  bytesTx : Nat
  wg : Int
  shutdownClosed : Bool
  log : List LogEntry
deriving DecidableEq

/-- The relay after `NewRelay` and a successful `Start`: listener bound, all
counters zero. -/
def Relay.started : Relay :=
  { listenerBound := true, listenerCloseCalls := 0, activeConns := 0, totalConns := 0,
    bytesRx := 0, bytesTx := 0, wg := 0, shutdownClosed := false, log := [] }

/-- A call of the relay logger. -/
def Relay.logf (r : Relay) (level : Level) (msg : String) (attrs : List (String × Int)) : Relay :=
  { r with log := r.log ++ [⟨level, msg, attrs⟩] }

/-- The call `r.wg.Add(delta)`: the counter is an `int32`, and `Add` panics when
the new counter is negative. -/
def Relay.wgAdd (r : Relay) (delta : Int) : Res Relay :=
  let v := wrapInt32 (r.wg + delta)
  if v < 0 then .panic "sync: negative WaitGroup counter" else .ok { r with wg := v }

/-- The method `Stats`: active, total, received and sent. -/
def Relay.Stats (r : Relay) : Int × Nat × Nat × Nat :=
  (r.activeConns, r.totalConns, r.bytesRx, r.bytesTx)

/-! ## The connection handler -/

/-- Program counter of the goroutine running `handleConnection`: the next
operation it performs. The four `defer...` points are the deferred calls, in the
order in which they run. -/
inductive HPc where
  | start
  | countTotal
  | clientDeadline
  | dial
  | targetDeadline
  | spawnRx
  | spawnTx
  | waitFirst
  | closeClient
  | closeTarget
  | waitSecond
  | addRx
  | addTx
  | deferTarget
  | deferClient
  | deferActive
  | deferWg
  | done
deriving DecidableEq

/-- The operations of `handleConnection`, as recorded in the order it performs them. -/
inductive Op where
  | activeInc
  | totalInc
  | logAccepted
  | clientSetDeadline
  | dial
  | logDialFailed
  | logConnected
  | targetSetDeadline
  | goRx
  | goTx
  | recvDone
  | clientClose
  | targetClose
  | bytesRxAdd
  | bytesTxAdd
  | logClosed
  | activeDec
  | wgDone
deriving DecidableEq

/-- The two copy directions: `rx` is client to target, `tx` is target to client. -/
inductive Dir where
  | rx
  | tx
deriving DecidableEq

/-- State of one of the two copy goroutines: not started, inside `io.Copy`, or
returned after sending its error on `done`, with the byte count it stored. -/
inductive CopyState where
  | idle
  | running
  | finished (n : Nat)
deriving DecidableEq

/-- One call of `handleConnection`: its program counter, the two sockets, the two
copy goroutines, the local variables `bytesRx`, `bytesTx`, `connID` and `err`, the
contents of the buffered channel `done` (an entry is `true` for a non-nil error),
and the operations performed so far. -/
structure Handler where
  pc : HPc
  client : Sock
  target : Option Sock
  copyRx : CopyState
  copyTx : CopyState
  bytesRx : Nat
  bytesTx : Nat
  connID : Nat
  err : Bool
  done : List Bool
  ops : List Op
deriving DecidableEq

/-- The handler the statement `go r.handleConnection(conn)` starts. -/
def Handler.new (c : Sock) : Handler :=
  { pc := .start, client := c, target := none, copyRx := .idle, copyTx := .idle,
    bytesRx := 0, bytesTx := 0, connID := 0, err := false, done := [], ops := [] }

/-- The timeout given to the dialer: zero unless `ConnectTimeoutSecs > 0`. -/
def dialTimeout (cfg : Config) : Int :=
  if cfg.ConnectTimeoutSecs > 0 then durationOfSecs cfg.ConnectTimeoutSecs else 0

/-- One operation of `handleConnection`, at clock reading `now`; `dialOk` is the
outcome of `dialer.Dial` when the operation is the dial. -/
def Relay.handleConnection (cfg : Config) (r : Relay) (h : Handler) (now : Int) (dialOk : Bool) :
    Res (Relay × Handler) :=
  match h.pc with
  | .start =>
    .ok ({ r with activeConns := wrapInt32 (r.activeConns + 1) },
         { h with pc := .countTotal, ops := h.ops ++ [.activeInc] })
  | .countTotal =>
    let id := wrapUint64 (r.totalConns + 1)
    .ok ({ r with totalConns := id },
         { h with pc := .clientDeadline, connID := id, ops := h.ops ++ [.totalInc, .logAccepted] })
  | .clientDeadline =>
    if cfg.IdleTimeoutSecs > 0 then
      .ok (r, { h with pc := .dial
                       client := h.client.SetDeadline (now + durationOfSecs cfg.IdleTimeoutSecs)
                       ops := h.ops ++ [.clientSetDeadline] })
    else .ok (r, { h with pc := .dial })
  | .dial =>
    if dialOk then
      .ok (r, { h with pc := .targetDeadline, target := some Sock.fresh,
                       ops := h.ops ++ [.dial, .logConnected] })
    else
      .ok (r, { h with pc := .deferClient, ops := h.ops ++ [.dial, .logDialFailed] })
  | .targetDeadline =>
    if cfg.IdleTimeoutSecs > 0 then
      .ok (r, { h with pc := .spawnRx
                       target := h.target.map
                         (fun t => t.SetDeadline (now + durationOfSecs cfg.IdleTimeoutSecs))
                       ops := h.ops ++ [.targetSetDeadline] })
    else .ok (r, { h with pc := .spawnRx })
  | .spawnRx => .ok (r, { h with pc := .spawnTx, copyRx := .running, ops := h.ops ++ [.goRx] })
  | .spawnTx => .ok (r, { h with pc := .waitFirst, copyTx := .running, ops := h.ops ++ [.goTx] })
  | .waitFirst =>
    match h.done with
    | [] => .blocked
    | e :: rest =>
      .ok (r, { h with pc := .closeClient, err := e, done := rest, ops := h.ops ++ [.recvDone] })
  | .closeClient =>
    .ok (r, { h with pc := .closeTarget, client := h.client.Close, ops := h.ops ++ [.clientClose] })
  | .closeTarget =>
    .ok (r, { h with pc := .waitSecond, target := h.target.map Sock.Close,
                     ops := h.ops ++ [.targetClose] })
  | .waitSecond =>
    match h.done with
    | [] => .blocked
    | _ :: rest => .ok (r, { h with pc := .addRx, done := rest, ops := h.ops ++ [.recvDone] })
  | .addRx =>
    .ok ({ r with bytesRx := wrapUint64 (r.bytesRx + wrapUint64 h.bytesRx) },
         { h with pc := .addTx, ops := h.ops ++ [.bytesRxAdd] })
  | .addTx =>
    .ok ({ r with bytesTx := wrapUint64 (r.bytesTx + wrapUint64 h.bytesTx) },
         { h with pc := .deferTarget, ops := h.ops ++ [.bytesTxAdd, .logClosed] })
  | .deferTarget =>
    .ok (r, { h with pc := .deferClient, target := h.target.map Sock.Close,
                     ops := h.ops ++ [.targetClose] })
  | .deferClient =>
    .ok (r, { h with pc := .deferActive, client := h.client.Close, ops := h.ops ++ [.clientClose] })
  | .deferActive =>
    .ok ({ r with activeConns := wrapInt32 (r.activeConns - 1) },
         { h with pc := .deferWg, ops := h.ops ++ [.activeDec] })
  | .deferWg =>
    (r.wgAdd (-1)).bind fun r1 => .ok (r1, { h with pc := .done, ops := h.ops ++ [.wgDone] })
  | .done => .blocked

/-- One of the two copy goroutines returns: `io.Copy` has copied `n` bytes, the
goroutine stores `n` in its byte variable and sends the error (`err` is `true`
for a non-nil one) on `done`. -/
def Handler.copyDone (h : Handler) (d : Dir) (n : Nat) (err : Bool) : Res Handler :=
  match d with
  | .rx =>
    if h.copyRx = .running then
      .ok { h with copyRx := .finished n, bytesRx := n, done := h.done ++ [err] }
    else .blocked
  | .tx =>
    if h.copyTx = .running then
      .ok { h with copyTx := .finished n, bytesTx := n, done := h.done ++ [err] }
    else .blocked

/-! ## The process: accept loop, handlers, shutdown -/

/-- Program counter of the goroutine running `acceptLoop`, holding the accepted
connection between `Accept` and the end of the iteration. -/
inductive LoopPc where
  | top
  | accepting
  | accepted (c : Sock)
  | rejecting (c : Sock)
  | admitting (c : Sock)
  | spawning (c : Sock)
  | exited
deriving DecidableEq

/-- Program counter of the caller of `Shutdown`; `returned e` holds the error
returned, `none` for `nil`. -/
inductive SPc where
  | idle
  | closeSignal
  | closeListener
  | startWaiter
  | selecting
  | complete
  | returned (e : Option String)
deriving DecidableEq

/-- Program counter of the goroutine `Shutdown` starts: absent, inside
`r.wg.Wait()`, past it, or past `close(done)`. -/
inductive WPc where
  | absent
  | waiting
  | woke
  | closed
deriving DecidableEq

/-- The running process: the relay, the context of `Start` (cancelled or not),
the accept loop, every handler started so far in the order of the `go`
statements, the sockets of the rejected connections, the caller of `Shutdown`
with the grace duration it passed, and the goroutine waiting on the join
counter. -/
structure System where
  r : Relay
  ctxDone : Bool
  loop : LoopPc
  handlers : List Handler
  rejected : List Sock
  sd : SPc
  grace : Int
  waiter : WPc
deriving DecidableEq

/-- The process when `Start` has returned: the accept loop at the top of its
first iteration, no connection yet, `Shutdown` not called. -/
def System.init : System :=
  { r := Relay.started, ctxDone := false, loop := .top, handlers := [], rejected := [],
    sd := .idle, grace := 0, waiter := .absent }

/-- One operation of `acceptLoop`; `acceptOk` says whether `Accept` would return
a connection (it returns an error in any case once the listener is closed). -/
def acceptLoop (cfg : Config) (s : System) (acceptOk : Bool) : Res System :=
  match s.loop with
  | .top =>
    if s.ctxDone ∨ s.r.shutdownClosed then .ok { s with loop := .exited }
    else .ok { s with loop := .accepting }
  | .accepting =>
    if ¬ s.r.listenerBound then .panic "invalid memory address or nil pointer dereference"
    else if acceptOk ∧ s.r.listenerCloseCalls = 0 then .ok { s with loop := .accepted Sock.fresh }
    else if s.r.shutdownClosed then .ok { s with loop := .exited }
    else .ok { s with r := s.r.logf .error "accept failed" [], loop := .top }
  | .accepted c =>
    let active := s.r.activeConns
    if active ≥ wrapInt32 cfg.MaxConns then
      .ok { s with r := s.r.logf .warn "connection limit reached, rejecting"
                     [("active_conns", active), ("max_conns", cfg.MaxConns)]
                   loop := .rejecting c }
    else .ok { s with loop := .admitting c }
  | .rejecting c => .ok { s with rejected := s.rejected ++ [c.Close], loop := .top }
  | .admitting c => (s.r.wgAdd 1).bind fun r1 => .ok { s with r := r1, loop := .spawning c }
  | .spawning c => .ok { s with handlers := s.handlers ++ [Handler.new c], loop := .top }
  | .exited => .blocked

/-- One operation of `Shutdown(timeout)`. At the `select`, `viaDone` chooses the
branch `<-done`, which needs `done` closed; otherwise the timer branch is taken.
A call is possible when no call is under way. -/
def Shutdown (s : System) (timeout : Int) (viaDone : Bool) : Res System :=
  match s.sd with
  | .idle | .returned _ =>
    .ok { s with r := s.r.logf .info "shutdown initiated" [], sd := .closeSignal, grace := timeout }
  | .closeSignal =>
    if s.r.shutdownClosed then .panic "close of closed channel"
    else .ok { s with r := { s.r with shutdownClosed := true }, sd := .closeListener }
  | .closeListener =>
    if s.r.listenerBound then
      .ok { s with r := { s.r with listenerCloseCalls := s.r.listenerCloseCalls + 1 },
                   sd := .startWaiter }
    else .ok { s with sd := .startWaiter }
  | .startWaiter => .ok { s with waiter := .waiting, sd := .selecting }
  | .selecting =>
    if viaDone then
      if s.waiter = .closed then
        .ok { s with r := s.r.logf .info "all connections closed gracefully" [], sd := .complete }
      else .blocked
    else
      .ok { s with r := s.r.logf .warn "shutdown timeout reached, forcing close"
                     [("active_conns", s.r.activeConns)]
                   sd := .complete }
  | .complete =>
    .ok { s with r := s.r.logf .info "shutdown complete"
                   [("total_conns", s.r.totalConns), ("bytes_rx", s.r.bytesRx),
                    ("bytes_tx", s.r.bytesTx)]
                 sd := .returned none }

/-- One operation of the goroutine of `Shutdown`: `r.wg.Wait()` returns when the
join counter is zero, then `done` is closed. -/
def waiterStep (s : System) : Res System :=
  match s.waiter with
  | .waiting => if s.r.wg = 0 then .ok { s with waiter := .woke } else .blocked
  | .woke => .ok { s with waiter := .closed }
  | .absent | .closed => .blocked

/-- What the scheduler and the environment choose at each step. -/
inductive Action where
  | cancel
  | loop (acceptOk : Bool)
  | handler (i : Nat) (now : Int) (dialOk : Bool)
  | copyDone (i : Nat) (d : Dir) (n : Nat) (err : Bool)
  | shutdown (timeout : Int) (viaDone : Bool)
  | waiter
deriving DecidableEq

/-- One step of the process. -/
def step (cfg : Config) (s : System) : Action → Res System
  | .cancel => .ok { s with ctxDone := true }
  | .loop acceptOk => acceptLoop cfg s acceptOk
  | .handler i now dialOk =>
    match s.handlers[i]? with
    | none => .blocked
    | some h =>
      (Relay.handleConnection cfg s.r h now dialOk).bind fun p =>
        .ok { s with r := p.1, handlers := s.handlers.set i p.2 }
  | .copyDone i d n err =>
    match s.handlers[i]? with
    | none => .blocked
    | some h => (h.copyDone d n err).bind fun h1 => .ok { s with handlers := s.handlers.set i h1 }
  | .shutdown timeout viaDone => Shutdown s timeout viaDone
  | .waiter => waiterStep s

/-- A run of the process under a schedule. -/
def run (cfg : Config) (s : System) : List Action → Res System
  | [] => .ok s
  | a :: rest => (step cfg s a).bind fun s1 => run cfg s1 rest

/-- The states the process can be in. -/
def Reachable (cfg : Config) (s : System) : Prop :=
  ∃ acts, run cfg System.init acts = .ok s

/-! ## Ghost quantities used by the invariants -/

/-- Operations up to and including the optional client deadline. -/
def opsHead (cfg : Config) : List Op :=
  [.activeInc, .totalInc, .logAccepted] ++
    (if cfg.IdleTimeoutSecs > 0 then [.clientSetDeadline] else [])

/-- Operations up to and including the optional target deadline, after a
successful dial. -/
def opsConnected (cfg : Config) : List Op :=
  opsHead cfg ++ [.dial, .logConnected] ++
    (if cfg.IdleTimeoutSecs > 0 then [.targetSetDeadline] else [])

/-- The operations of the relaying phase and of the deferred calls, in order. -/
def opsRelay : List Op :=
  [.goRx, .goTx, .recvDone, .clientClose, .targetClose, .recvDone, .bytesRxAdd, .bytesTxAdd,
   .logClosed, .targetClose, .clientClose, .activeDec, .wgDone]

/-- Every operation of a call of `handleConnection` whose dial succeeds, in order. -/
def successOps (cfg : Config) : List Op := opsConnected cfg ++ opsRelay

/-- Every operation of a call of `handleConnection` whose dial fails, in order. -/
def failureOps (cfg : Config) : List Op :=
  opsHead cfg ++ [.dial, .logDialFailed, .clientClose, .activeDec, .wgDone]

/-- The operations a handler has performed when its program counter is `pc`;
`ok` says whether the dial succeeded, which matters from the deferred calls on. -/
def opsAt (cfg : Config) (ok : Bool) : HPc → List Op
  | .start => []
  | .countTotal => [.activeInc]
  | .clientDeadline => [.activeInc, .totalInc, .logAccepted]
  | .dial => opsHead cfg
  | .targetDeadline => opsHead cfg ++ [.dial, .logConnected]
  | .spawnRx => opsConnected cfg
  | .spawnTx => opsConnected cfg ++ opsRelay.take 1
  | .waitFirst => opsConnected cfg ++ opsRelay.take 2
  | .closeClient => opsConnected cfg ++ opsRelay.take 3
  | .closeTarget => opsConnected cfg ++ opsRelay.take 4
  | .waitSecond => opsConnected cfg ++ opsRelay.take 5
  | .addRx => opsConnected cfg ++ opsRelay.take 6
  | .addTx => opsConnected cfg ++ opsRelay.take 7
  | .deferTarget => opsConnected cfg ++ opsRelay.take 9
  | .deferClient =>
    if ok then opsConnected cfg ++ opsRelay.take 10 else opsHead cfg ++ [.dial, .logDialFailed]
  | .deferActive =>
    if ok then opsConnected cfg ++ opsRelay.take 11
    else opsHead cfg ++ [.dial, .logDialFailed, .clientClose]
  | .deferWg =>
    if ok then opsConnected cfg ++ opsRelay.take 12
    else opsHead cfg ++ [.dial, .logDialFailed, .clientClose, .activeDec]
  | .done => if ok then successOps cfg else failureOps cfg

/-- Whether a copy goroutine has returned. -/
def CopyState.fin : CopyState → Nat
  | .finished _ => 1
  | _ => 0

/-- The byte count a copy goroutine has reported, zero before it returns. -/
def CopyState.reported : CopyState → Nat
  | .finished n => n
  | _ => 0

/-- Whether the program counter is one a handler reaches only after a
successful dial (`some true`), only before the dial (`some false`), or either. -/
def HPc.needsTarget : HPc → Option Bool
  | .start | .countTotal | .clientDeadline | .dial => some false
  | .deferClient | .deferActive | .deferWg | .done => none
  | _ => some true

/-- Number of `Close` calls the handler has made on the client socket. -/
def clientCloses (ok : Bool) : HPc → Nat
  | .closeTarget | .waitSecond | .addRx | .addTx | .deferTarget => 1
  | .deferClient => if ok then 1 else 0
  | .deferActive | .deferWg | .done => if ok then 2 else 1
  | _ => 0

/-- Number of `Close` calls the handler has made on the target socket. -/
def targetCloses : HPc → Nat
  | .waitSecond | .addRx | .addTx | .deferTarget => 1
  | .deferClient | .deferActive | .deferWg | .done => 2
  | _ => 0

/-- Number of completion reports the handler has received from `done`. -/
def recvs (ok : Bool) : HPc → Nat
  | .closeClient | .closeTarget | .waitSecond => 1
  | .addRx | .addTx | .deferTarget => 2
  | .deferClient | .deferActive | .deferWg | .done => if ok then 2 else 0
  | _ => 0

/-- Whether the statement `go` of the client-to-target copy has run. -/
def rxStarted (ok : Bool) : HPc → Bool
  | .start | .countTotal | .clientDeadline | .dial | .targetDeadline | .spawnRx => false
  | .deferClient | .deferActive | .deferWg | .done => ok
  | _ => true

/-- Whether the statement `go` of the target-to-client copy has run. -/
def txStarted (ok : Bool) : HPc → Bool
  | .start | .countTotal | .clientDeadline | .dial | .targetDeadline | .spawnRx | .spawnTx => false
  | .deferClient | .deferActive | .deferWg | .done => ok
  | _ => true

/-- Whether the handler is past the point where it sets the client deadline. -/
def pastClientDeadline : HPc → Bool
  | .start | .countTotal | .clientDeadline => false
  | _ => true

/-- Whether the handler is past the point where it sets the target deadline. -/
def pastTargetDeadline : HPc → Bool
  | .start | .countTotal | .clientDeadline | .dial | .targetDeadline => false
  | _ => true

/-- The invariant of one handler whose client socket was fresh: the recorded
operations are those its program counter implies, the sockets carry exactly the
closes and deadlines made so far, the copy goroutines were started iff the `go`
statements ran, every finished copy has its report either in the channel or
received, and the byte variables hold what the copies reported. -/
structure HInv (cfg : Config) (h : Handler) : Prop where
  ops_eq : h.ops = opsAt cfg h.target.isSome h.pc
  target_pc : ∀ b, h.pc.needsTarget = some b → h.target.isSome = b
  client_close : h.client.closeCalls = clientCloses h.target.isSome h.pc
  client_dl : h.client.deadlines.length =
    if cfg.IdleTimeoutSecs > 0 ∧ pastClientDeadline h.pc = true then 1 else 0
  target_close : ∀ t, h.target = some t → t.closeCalls = targetCloses h.pc
  target_dl : ∀ t, h.target = some t → t.deadlines.length =
    if cfg.IdleTimeoutSecs > 0 ∧ pastTargetDeadline h.pc = true then 1 else 0
  rx_idle : h.copyRx = .idle ↔ rxStarted h.target.isSome h.pc = false
  tx_idle : h.copyTx = .idle ↔ txStarted h.target.isSome h.pc = false
  chan : h.copyRx.fin + h.copyTx.fin = h.done.length + recvs h.target.isSome h.pc
  rx_bytes : h.bytesRx = h.copyRx.reported
  tx_bytes : h.bytesTx = h.copyTx.reported

/-- Sum of a per-handler quantity over the handlers. -/
def total (f : Handler → Nat) (hs : List Handler) : Nat := (hs.map f).sum

/-- One for a handler that has not yet released its join membership. -/
def inFlight (h : Handler) : Nat :=
  match h.pc with
  | .done => 0
  | _ => 1

/-- One for a handler that has incremented `activeConns` and not yet decremented it. -/
def holdsSlot (h : Handler) : Nat :=
  match h.pc with
  | .start | .deferWg | .done => 0
  | _ => 1

/-- One for a handler that has performed its `totalConns.Add(1)`. -/
def counted (h : Handler) : Nat :=
  match h.pc with
  | .start | .countTotal => 0
  | _ => 1

/-- Whether the handler has performed `r.bytesRx.Add`. -/
def foldedRx (ok : Bool) : HPc → Bool
  | .addTx | .deferTarget => true
  | .deferClient | .deferActive | .deferWg | .done => ok
  | _ => false

/-- Whether the handler has performed `r.bytesTx.Add`. -/
def foldedTx (ok : Bool) : HPc → Bool
  | .deferTarget => true
  | .deferClient | .deferActive | .deferWg | .done => ok
  | _ => false

/-- The client-to-target byte count of a handler, once it has folded it into
the counter of the relay. -/
def rxShare (h : Handler) : Nat :=
  if foldedRx h.target.isSome h.pc then h.copyRx.reported else 0

/-- The target-to-client byte count of a handler, once folded. -/
def txShare (h : Handler) : Nat :=
  if foldedTx h.target.isSome h.pc then h.copyTx.reported else 0

/-- The connection the accept loop holds between `Accept` and the end of the
iteration. -/
def LoopPc.conn : LoopPc → Option Sock
  | .accepted c | .rejecting c | .admitting c | .spawning c => some c
  | _ => none

/-- One when the accept loop has called `r.wg.Add(1)` and not yet started the
handler. -/
def LoopPc.pending : LoopPc → Nat
  | .spawning _ => 1
  | _ => 0

/-- The invariant of the process. -/
structure GInv (cfg : Config) (s : System) : Prop where
  handlers_inv : ∀ h ∈ s.handlers, HInv cfg h
  wg_eq : s.r.wg = total inFlight s.handlers + s.loop.pending
  wg_lt : s.r.wg < 2147483648
  active_eq : s.r.activeConns = total holdsSlot s.handlers
  total_eq : s.r.totalConns = total counted s.handlers % two64
  rx_eq : s.r.bytesRx = total rxShare s.handlers % two64
  tx_eq : s.r.bytesTx = total txShare s.handlers % two64
  loop_fresh : ∀ c, s.loop.conn = some c → c = Sock.fresh
  rejected_closed : ∀ c ∈ s.rejected, c = Sock.fresh.Close

/-- The schedule that runs `n` operations of handler `i` in a row, the dial
having outcome `dialOk`; `clock k` is the clock reading of the operation after
which `k` more follow. -/
def handlerActs (i : Nat) (clock : Nat → Int) (dialOk : Bool) : Nat → List Action
  | 0 => []
  | n + 1 => .handler i (clock n) dialOk :: handlerActs i clock dialOk n

/-- The next `n` operations of a call of `handleConnection`, run in a row. -/
def handlerRun (cfg : Config) (clock : Nat → Int) (dialOk : Bool) :
    Nat → Relay × Handler → Res (Relay × Handler)
  | 0, p => .ok p
  | n + 1, p =>
    (Relay.handleConnection cfg p.1 p.2 (clock n) dialOk).bind (handlerRun cfg clock dialOk n)

/-- The conditions the specification lists for a valid configuration, in its
order, each with the error reported when it is violated. -/
def Config.conditions (c : Config) : List (Bool × ValidateError) :=
  [(decide (1 ≤ c.ListenPort ∧ c.ListenPort ≤ 65535), .listenPort c.ListenPort),
   (decide (1 ≤ c.TargetPort ∧ c.TargetPort ≤ 65535), .targetPort c.TargetPort),
   (decide (c.TargetAddr ≠ ""), .targetAddrEmpty),
   (decide (1 ≤ c.MaxConns), .maxConns c.MaxConns),
   (decide (0 ≤ c.IdleTimeoutSecs), .idleTimeoutNegative),
   (decide (0 ≤ c.ConnectTimeoutSecs), .connectTimeoutNegative),
   (decide (0 ≤ c.ShutdownGraceSecs), .shutdownGraceNegative),
   (decide (c.LogLevel = "debug" ∨ c.LogLevel = "info" ∨ c.LogLevel = "warn" ∨
      c.LogLevel = "error"), .logLevel c.LogLevel)]

/-- The error of the first violated condition, in the order of the
specification; `none` when every condition holds. -/
def Config.firstViolation (c : Config) : Option ValidateError :=
  ((c.conditions).find? (fun p => !p.1)).map (fun p => p.2)

/-- A configuration `Validate` accepts whose `MaxConns` does not fit in an `int32`. -/
def cfgHugeMax : Config := { DefaultConfig with MaxConns := 2147483648 }

/-- A configuration `Validate` accepts that allows one connection at a time. -/
def cfgOne : Config := { DefaultConfig with MaxConns := 1 }

/-- A configuration `Validate` accepts whose idle timeout in nanoseconds does
not fit in an `int64`. -/
def cfgLongIdle : Config := { DefaultConfig with IdleTimeoutSecs := 9223372037 }

/-- One whole iteration of the accept loop that admits a connection: select,
`Accept`, load and compare, `wg.Add(1)`, `go`. -/
def admitOne : List Action := [.loop true, .loop true, .loop true, .loop true, .loop true]

/-- The client-to-target byte count of a connection whose handler has returned
after a successful dial; zero for any other handler. -/
def completedRx (h : Handler) : Nat :=
  if h.pc = .done ∧ h.target.isSome = true then h.copyRx.reported else 0

/-- The target-to-client byte count of a completed connection. -/
def completedTx (h : Handler) : Nat :=
  if h.pc = .done ∧ h.target.isSome = true then h.copyTx.reported else 0

/-- The schedule of one connection relayed to the end: it is admitted, the dial
succeeds, the target-to-client copy reports `7` bytes first, the handler closes
both sockets, the client-to-target copy reports `5` bytes with an error, and
the handler folds the counts and returns. -/
def relayedConnection : List Action :=
  admitOne ++ handlerActs 0 (fun _ => 1000) true 7 ++ [.copyDone 0 .tx 7 false] ++
    handlerActs 0 (fun _ => 2000) true 3 ++ [.copyDone 0 .rx 5 true] ++
    handlerActs 0 (fun _ => 3000) true 7

/-- The schedule that admits a connection and runs the first operation of its
handler, the increment of `activeConns`, before the accept loop goes on. -/
def admitAndStart (i : Nat) : List Action := admitOne ++ [.handler i 0 true]

/-- The schedule of `n` connections accepted one after another, each handler
incrementing `activeConns` before the next `Accept`, none closing. -/
def admitAndStartMany (i : Nat) : Nat → List Action
  | 0 => []
  | n + 1 => admitAndStart i ++ admitAndStartMany (i + 1) n

/-- One whole iteration of the accept loop that rejects a connection: select,
`Accept`, load and compare, `Close`. -/
def rejectOne : List Action := [.loop true, .loop true, .loop true, .loop true]

/-- The accept loop is at the top of an iteration, nothing stops it, and the `k`
connections accepted so far are all open, their handlers past the increment of
`activeConns`. -/
def Busy (s : System) (k : Nat) : Prop :=
  s.loop = .top ∧ s.ctxDone = false ∧ s.r.shutdownClosed = false ∧ s.r.listenerBound = true ∧
    s.r.listenerCloseCalls = 0 ∧ s.r.activeConns = k ∧ s.r.wg = k ∧ s.handlers.length = k ∧
    s.rejected = []

theorem wrapInt32_id (x : Int) (h1 : -2147483648 ≤ x) (h2 : x < 2147483648) : wrapInt32 x = x := by
  unfold wrapInt32; omega

theorem wrapInt32_lt (x : Int) : wrapInt32 x < 2147483648 := by
  unfold wrapInt32; omega

theorem total_nil (f : Handler → Nat) : total f [] = 0 := rfl

theorem total_append (f : Handler → Nat) (hs : List Handler) (h : Handler) :
    total f (hs ++ [h]) = total f hs + f h := by
  simp [total]

theorem total_set (f : Handler → Nat) (hs : List Handler) (i : Nat) (h h1 : Handler)
    (hi : hs[i]? = some h) : total f (hs.set i h1) + f h = total f hs + f h1 := by
  induction hs generalizing i with
  | nil => simp at hi
  | cons a l ih =>
    cases i with
    | zero =>
      simp at hi; subst hi
      simp [total]; omega
    | succ j =>
      simp at hi
      have := ih j hi
      simp [total] at this ⊢; omega

theorem total_le_at (f g : Handler → Nat) (hfg : ∀ h, f h ≤ g h) (hs : List Handler) (i : Nat)
    (h : Handler) (hi : hs[i]? = some h) : total f hs + g h ≤ total g hs + f h := by
  induction hs generalizing i with
  | nil => simp at hi
  | cons a l ih =>
    cases i with
    | zero =>
      simp at hi; subst hi
      have : total f l ≤ total g l := by
        clear ih
        induction l with
        | nil => simp [total]
        | cons b l ih2 => have := hfg b; simp [total] at ih2 ⊢; omega
      simp [total] at this ⊢; omega
    | succ j =>
      simp at hi
      have := ih j hi
      have := hfg a
      simp [total] at * ; omega

theorem holdsSlot_le_inFlight (h : Handler) : holdsSlot h ≤ inFlight h := by
  unfold holdsSlot inFlight; cases h.pc <;> simp

theorem mem_of_getElem? {hs : List Handler} {i : Nat} {h : Handler} (hi : hs[i]? = some h) :
    h ∈ hs := by
  rw [List.getElem?_eq_some] at hi
  obtain ⟨hlt, rfl⟩ := hi
  exact List.getElem_mem _

theorem HInv_new (cfg : Config) : HInv cfg (Handler.new Sock.fresh) := by
  constructor <;> simp [Handler.new, Sock.fresh, opsAt, HPc.needsTarget, CopyState.fin, CopyState.reported, clientCloses, targetCloses, recvs, rxStarted, txStarted, pastClientDeadline, pastTargetDeadline]

theorem hstep_target_pc (cfg : Config) (r r1 : Relay) (h h1 : Handler) (now : Int) (ok : Bool)
    (h2 : ∀ b, h.pc.needsTarget = some b → h.target.isSome = b)
    (hs : Relay.handleConnection cfg r h now ok = .ok (r1, h1)) :
    ∀ b, h1.pc.needsTarget = some b → h1.target.isSome = b := by
  obtain ⟨pc, client, target, copyRx, copyTx, bRx, bTx, cid, err, done, ops⟩ := h
  simp only at h2
  cases pc <;> simp only [Relay.handleConnection, Relay.wgAdd, Res.bind] at hs <;>
    (try split at hs) <;> (try split at hs) <;>
    simp at hs <;> (try obtain ⟨-, rfl⟩ := hs) <;>
    simp_all [HPc.needsTarget, Sock.fresh]

theorem hstep_ops (cfg : Config) (r r1 : Relay) (h h1 : Handler) (now : Int) (ok : Bool)
    (h2 : ∀ b, h.pc.needsTarget = some b → h.target.isSome = b)
    (h0 : h.ops = opsAt cfg h.target.isSome h.pc)
    (hs : Relay.handleConnection cfg r h now ok = .ok (r1, h1)) :
    h1.ops = opsAt cfg h1.target.isSome h1.pc := by
  obtain ⟨pc, client, target, copyRx, copyTx, bRx, bTx, cid, err, done, ops⟩ := h
  simp only at h2 h0
  by_cases hidle : 0 < cfg.IdleTimeoutSecs <;>
  rcases target with _ | t <;>
  cases pc <;> simp only [Relay.handleConnection, Relay.wgAdd, Res.bind] at hs <;>
    (try split at hs) <;> (try split at hs) <;>
    simp at hs <;> (try obtain ⟨-, rfl⟩ := hs) <;>
    simp_all [HPc.needsTarget, opsAt, opsHead, opsConnected, opsRelay, successOps, failureOps] <;>
    (try (intros; split_ifs <;> first | omega | rfl | simp))

theorem hstep_client_close (cfg : Config) (r r1 : Relay) (h h1 : Handler) (now : Int) (ok : Bool)
    (h2 : ∀ b, h.pc.needsTarget = some b → h.target.isSome = b)
    (h3 : h.client.closeCalls = clientCloses h.target.isSome h.pc)
    (hs : Relay.handleConnection cfg r h now ok = .ok (r1, h1)) :
    h1.client.closeCalls = clientCloses h1.target.isSome h1.pc := by
  obtain ⟨pc, client, target, copyRx, copyTx, bRx, bTx, cid, err, done, ops⟩ := h
  simp only at h2 h3
  cases pc <;> simp only [Relay.handleConnection, Relay.wgAdd, Res.bind] at hs <;>
    (try split at hs) <;> (try split at hs) <;>
    simp at hs <;> (try obtain ⟨-, rfl⟩ := hs) <;>
    simp_all [HPc.needsTarget, clientCloses, Sock.SetDeadline, Sock.Close] <;>
    (try (cases target <;> simp_all))

theorem hstep_client_dl (cfg : Config) (r r1 : Relay) (h h1 : Handler) (now : Int) (ok : Bool)
    (h4 : h.client.deadlines.length = if cfg.IdleTimeoutSecs > 0 ∧ pastClientDeadline h.pc = true then 1 else 0)
    (hs : Relay.handleConnection cfg r h now ok = .ok (r1, h1)) :
    h1.client.deadlines.length = if cfg.IdleTimeoutSecs > 0 ∧ pastClientDeadline h1.pc = true then 1 else 0 := by
  obtain ⟨pc, client, target, copyRx, copyTx, bRx, bTx, cid, err, done, ops⟩ := h
  simp only at h4
  by_cases hidle : 0 < cfg.IdleTimeoutSecs <;>
  cases pc <;> simp only [Relay.handleConnection, Relay.wgAdd, Res.bind] at hs <;>
    (try split at hs) <;> (try split at hs) <;>
    simp at hs <;> (try obtain ⟨-, rfl⟩ := hs) <;>
    simp_all [HPc.needsTarget, pastClientDeadline, Sock.SetDeadline, Sock.Close] <;>
    (try (intros; split_ifs <;> first | omega | rfl | simp))

theorem hstep_target_close (cfg : Config) (r r1 : Relay) (h h1 : Handler) (now : Int) (ok : Bool)
    (h2 : ∀ b, h.pc.needsTarget = some b → h.target.isSome = b)
    (h5 : ∀ t, h.target = some t → t.closeCalls = targetCloses h.pc)
    (hs : Relay.handleConnection cfg r h now ok = .ok (r1, h1)) :
    ∀ t, h1.target = some t → t.closeCalls = targetCloses h1.pc := by
  obtain ⟨pc, client, target, copyRx, copyTx, bRx, bTx, cid, err, done, ops⟩ := h
  simp only at h2 h5
  cases pc <;> simp only [Relay.handleConnection, Relay.wgAdd, Res.bind] at hs <;>
    (try split at hs) <;> (try split at hs) <;>
    simp at hs <;> (try obtain ⟨-, rfl⟩ := hs) <;>
    simp_all [HPc.needsTarget, targetCloses, Sock.SetDeadline, Sock.Close, Sock.fresh]

theorem hstep_target_dl (cfg : Config) (r r1 : Relay) (h h1 : Handler) (now : Int) (ok : Bool)
    (h2 : ∀ b, h.pc.needsTarget = some b → h.target.isSome = b)
    (h6 : ∀ t, h.target = some t → t.deadlines.length = if cfg.IdleTimeoutSecs > 0 ∧ pastTargetDeadline h.pc = true then 1 else 0)
    (hs : Relay.handleConnection cfg r h now ok = .ok (r1, h1)) :
    ∀ t, h1.target = some t → t.deadlines.length = if cfg.IdleTimeoutSecs > 0 ∧ pastTargetDeadline h1.pc = true then 1 else 0 := by
  obtain ⟨pc, client, target, copyRx, copyTx, bRx, bTx, cid, err, done, ops⟩ := h
  simp only at h2 h6
  by_cases hidle : 0 < cfg.IdleTimeoutSecs <;>
  cases pc <;> simp only [Relay.handleConnection, Relay.wgAdd, Res.bind] at hs <;>
    (try split at hs) <;> (try split at hs) <;>
    simp at hs <;> (try obtain ⟨-, rfl⟩ := hs) <;>
    simp_all [HPc.needsTarget, pastTargetDeadline, Sock.SetDeadline, Sock.Close, Sock.fresh] <;>
    (try (intros; split_ifs <;> first | omega | rfl | simp))

theorem hstep_rx_idle (cfg : Config) (r r1 : Relay) (h h1 : Handler) (now : Int) (ok : Bool)
    (h2 : ∀ b, h.pc.needsTarget = some b → h.target.isSome = b)
    (h7 : h.copyRx = .idle ↔ rxStarted h.target.isSome h.pc = false)
    (hs : Relay.handleConnection cfg r h now ok = .ok (r1, h1)) :
    h1.copyRx = .idle ↔ rxStarted h1.target.isSome h1.pc = false := by
  obtain ⟨pc, client, target, copyRx, copyTx, bRx, bTx, cid, err, done, ops⟩ := h
  simp only at h2 h7
  cases pc <;> simp only [Relay.handleConnection, Relay.wgAdd, Res.bind] at hs <;>
    (try split at hs) <;> (try split at hs) <;>
    simp at hs <;> (try obtain ⟨-, rfl⟩ := hs) <;>
    simp_all [HPc.needsTarget, rxStarted]

theorem hstep_tx_idle (cfg : Config) (r r1 : Relay) (h h1 : Handler) (now : Int) (ok : Bool)
    (h2 : ∀ b, h.pc.needsTarget = some b → h.target.isSome = b)
    (h8 : h.copyTx = .idle ↔ txStarted h.target.isSome h.pc = false)
    (hs : Relay.handleConnection cfg r h now ok = .ok (r1, h1)) :
    h1.copyTx = .idle ↔ txStarted h1.target.isSome h1.pc = false := by
  obtain ⟨pc, client, target, copyRx, copyTx, bRx, bTx, cid, err, done, ops⟩ := h
  simp only at h2 h8
  cases pc <;> simp only [Relay.handleConnection, Relay.wgAdd, Res.bind] at hs <;>
    (try split at hs) <;> (try split at hs) <;>
    simp at hs <;> (try obtain ⟨-, rfl⟩ := hs) <;>
    simp_all [HPc.needsTarget, txStarted]

theorem hstep_chan (cfg : Config) (r r1 : Relay) (h h1 : Handler) (now : Int) (ok : Bool)
    (h2 : ∀ b, h.pc.needsTarget = some b → h.target.isSome = b)
    (h7 : h.copyRx = .idle ↔ rxStarted h.target.isSome h.pc = false)
    (h8 : h.copyTx = .idle ↔ txStarted h.target.isSome h.pc = false)
    (h9 : h.copyRx.fin + h.copyTx.fin = h.done.length + recvs h.target.isSome h.pc)
    (hs : Relay.handleConnection cfg r h now ok = .ok (r1, h1)) :
    h1.copyRx.fin + h1.copyTx.fin = h1.done.length + recvs h1.target.isSome h1.pc := by
  obtain ⟨pc, client, target, copyRx, copyTx, bRx, bTx, cid, err, done, ops⟩ := h
  simp only at h2 h7 h8 h9
  cases pc <;> simp only [Relay.handleConnection, Relay.wgAdd, Res.bind] at hs <;>
    (try split at hs) <;> (try split at hs) <;>
    simp at hs <;> (try obtain ⟨-, rfl⟩ := hs) <;>
    simp_all [HPc.needsTarget, recvs, rxStarted, txStarted, CopyState.fin] <;>
    (try omega)

theorem hstep_rx_bytes (cfg : Config) (r r1 : Relay) (h h1 : Handler) (now : Int) (ok : Bool)
    (h2 : ∀ b, h.pc.needsTarget = some b → h.target.isSome = b)
    (h7 : h.copyRx = .idle ↔ rxStarted h.target.isSome h.pc = false)
    (h10 : h.bytesRx = h.copyRx.reported)
    (hs : Relay.handleConnection cfg r h now ok = .ok (r1, h1)) :
    h1.bytesRx = h1.copyRx.reported := by
  obtain ⟨pc, client, target, copyRx, copyTx, bRx, bTx, cid, err, done, ops⟩ := h
  simp only at h2 h7 h10
  cases pc <;> simp only [Relay.handleConnection, Relay.wgAdd, Res.bind] at hs <;>
    (try split at hs) <;> (try split at hs) <;>
    simp at hs <;> (try obtain ⟨-, rfl⟩ := hs) <;>
    simp_all [HPc.needsTarget, rxStarted, CopyState.reported]

theorem hstep_tx_bytes (cfg : Config) (r r1 : Relay) (h h1 : Handler) (now : Int) (ok : Bool)
    (h2 : ∀ b, h.pc.needsTarget = some b → h.target.isSome = b)
    (h8 : h.copyTx = .idle ↔ txStarted h.target.isSome h.pc = false)
    (h11 : h.bytesTx = h.copyTx.reported)
    (hs : Relay.handleConnection cfg r h now ok = .ok (r1, h1)) :
    h1.bytesTx = h1.copyTx.reported := by
  obtain ⟨pc, client, target, copyRx, copyTx, bRx, bTx, cid, err, done, ops⟩ := h
  simp only at h2 h8 h11
  cases pc <;> simp only [Relay.handleConnection, Relay.wgAdd, Res.bind] at hs <;>
    (try split at hs) <;> (try split at hs) <;>
    simp at hs <;> (try obtain ⟨-, rfl⟩ := hs) <;>
    simp_all [HPc.needsTarget, txStarted, CopyState.reported]

theorem HInv_handleConnection (cfg : Config) (r r1 : Relay) (h h1 : Handler) (now : Int) (ok : Bool)
    (hi : HInv cfg h) (hs : Relay.handleConnection cfg r h now ok = .ok (r1, h1)) : HInv cfg h1 :=
  { ops_eq := hstep_ops cfg r r1 h h1 now ok hi.target_pc hi.ops_eq hs
    target_pc := hstep_target_pc cfg r r1 h h1 now ok hi.target_pc hs
    client_close := hstep_client_close cfg r r1 h h1 now ok hi.target_pc hi.client_close hs
    client_dl := hstep_client_dl cfg r r1 h h1 now ok hi.client_dl hs
    target_close := hstep_target_close cfg r r1 h h1 now ok hi.target_pc hi.target_close hs
    target_dl := hstep_target_dl cfg r r1 h h1 now ok hi.target_pc hi.target_dl hs
    rx_idle := hstep_rx_idle cfg r r1 h h1 now ok hi.target_pc hi.rx_idle hs
    tx_idle := hstep_tx_idle cfg r r1 h h1 now ok hi.target_pc hi.tx_idle hs
    chan := hstep_chan cfg r r1 h h1 now ok hi.target_pc hi.rx_idle hi.tx_idle hi.chan hs
    rx_bytes := hstep_rx_bytes cfg r r1 h h1 now ok hi.target_pc hi.rx_idle hi.rx_bytes hs
    tx_bytes := hstep_tx_bytes cfg r r1 h h1 now ok hi.target_pc hi.tx_idle hi.tx_bytes hs }

theorem HInv_copyDone (cfg : Config) (h h1 : Handler) (d : Dir) (n : Nat) (err : Bool)
    (hi : HInv cfg h) (hs : h.copyDone d n err = .ok h1) : HInv cfg h1 := by
  obtain ⟨q0, q1, q2, q3, q4, q5, q6, q7, q8, q9, q10⟩ := hi
  cases d <;> simp only [Handler.copyDone] at hs <;> split at hs <;> simp at hs <;> subst hs <;>
    constructor <;> simp_all [CopyState.fin, CopyState.reported] <;> omega

theorem hstep_wg (cfg : Config) (r r1 : Relay) (h h1 : Handler) (now : Int) (ok : Bool)
    (hwg1 : (inFlight h : Int) ≤ r.wg)
    (hwg2 : r.wg < 2147483648)
    (hs : Relay.handleConnection cfg r h now ok = .ok (r1, h1)) :
    r1.wg + inFlight h = r.wg + inFlight h1 := by
  obtain ⟨pc, client, target, copyRx, copyTx, bRx, bTx, cid, err, done, ops⟩ := h
  simp only [inFlight, holdsSlot, counted, rxShare, txShare] at hwg1 hwg2
  cases pc <;> simp only [Relay.handleConnection, Relay.wgAdd] at hs <;>
    (try split_ifs at hs) <;> (try split at hs) <;>
    simp [Res.bind] at hs <;> (try obtain ⟨rfl, rfl⟩ := hs) <;>
    simp_all [HPc.needsTarget, inFlight, wrapInt32] <;>
    omega

theorem hstep_active (cfg : Config) (r r1 : Relay) (h h1 : Handler) (now : Int) (ok : Bool)
    (hwg2 : r.wg < 2147483648)
    (ha1 : (holdsSlot h : Int) ≤ r.activeConns)
    (ha2 : r.activeConns + inFlight h ≤ r.wg + holdsSlot h)
    (hs : Relay.handleConnection cfg r h now ok = .ok (r1, h1)) :
    r1.activeConns + holdsSlot h = r.activeConns + holdsSlot h1 := by
  obtain ⟨pc, client, target, copyRx, copyTx, bRx, bTx, cid, err, done, ops⟩ := h
  simp only [inFlight, holdsSlot, counted, rxShare, txShare] at hwg2 ha1 ha2
  cases pc <;> simp only [Relay.handleConnection, Relay.wgAdd] at hs <;>
    (try split_ifs at hs) <;> (try split at hs) <;>
    simp [Res.bind] at hs <;> (try obtain ⟨rfl, rfl⟩ := hs) <;>
    simp_all [HPc.needsTarget, inFlight, holdsSlot, wrapInt32] <;>
    omega

theorem hstep_total (cfg : Config) (r r1 : Relay) (h h1 : Handler) (now : Int) (ok : Bool)
    (hs : Relay.handleConnection cfg r h now ok = .ok (r1, h1)) :
    r1.totalConns = (if h.pc = .countTotal then (r.totalConns + 1) % two64 else r.totalConns) ∧
      counted h1 = counted h + (if h.pc = .countTotal then 1 else 0) := by
  obtain ⟨pc, client, target, copyRx, copyTx, bRx, bTx, cid, err, done, ops⟩ := h
  cases pc <;> simp only [Relay.handleConnection, Relay.wgAdd] at hs <;>
    (try split_ifs at hs) <;> (try split at hs) <;>
    simp [Res.bind] at hs <;> (try obtain ⟨rfl, rfl⟩ := hs) <;>
    simp_all [HPc.needsTarget, counted, wrapUint64]

theorem hstep_rx (cfg : Config) (r r1 : Relay) (h h1 : Handler) (now : Int) (ok : Bool)
    (h2 : ∀ b, h.pc.needsTarget = some b → h.target.isSome = b)
    (h10 : h.bytesRx = h.copyRx.reported)
    (hs : Relay.handleConnection cfg r h now ok = .ok (r1, h1)) :
    r1.bytesRx = (if h.pc = .addRx then (r.bytesRx + h.copyRx.reported) % two64 else r.bytesRx) ∧
      rxShare h1 = rxShare h + (if h.pc = .addRx then h.copyRx.reported else 0) := by
  obtain ⟨pc, client, target, copyRx, copyTx, bRx, bTx, cid, err, done, ops⟩ := h
  simp only [inFlight, holdsSlot, counted, rxShare, txShare] at h2 h10
  cases pc <;> simp only [Relay.handleConnection, Relay.wgAdd] at hs <;>
    (try split_ifs at hs) <;> (try split at hs) <;>
    simp [Res.bind] at hs <;> (try obtain ⟨rfl, rfl⟩ := hs) <;>
    simp_all [HPc.needsTarget, rxShare, foldedRx, wrapUint64, CopyState.reported]

theorem hstep_tx (cfg : Config) (r r1 : Relay) (h h1 : Handler) (now : Int) (ok : Bool)
    (h2 : ∀ b, h.pc.needsTarget = some b → h.target.isSome = b)
    (h11 : h.bytesTx = h.copyTx.reported)
    (hs : Relay.handleConnection cfg r h now ok = .ok (r1, h1)) :
    r1.bytesTx = (if h.pc = .addTx then (r.bytesTx + h.copyTx.reported) % two64 else r.bytesTx) ∧
      txShare h1 = txShare h + (if h.pc = .addTx then h.copyTx.reported else 0) := by
  obtain ⟨pc, client, target, copyRx, copyTx, bRx, bTx, cid, err, done, ops⟩ := h
  simp only [inFlight, holdsSlot, counted, rxShare, txShare] at h2 h11
  cases pc <;> simp only [Relay.handleConnection, Relay.wgAdd] at hs <;>
    (try split_ifs at hs) <;> (try split at hs) <;>
    simp [Res.bind] at hs <;> (try obtain ⟨rfl, rfl⟩ := hs) <;>
    simp_all [HPc.needsTarget, txShare, foldedTx, wrapUint64, CopyState.reported]

theorem hstep_frame (cfg : Config) (r r1 : Relay) (h h1 : Handler) (now : Int) (ok : Bool)
    (hs : Relay.handleConnection cfg r h now ok = .ok (r1, h1)) :
    r1.listenerBound = r.listenerBound ∧ r1.listenerCloseCalls = r.listenerCloseCalls ∧
      r1.shutdownClosed = r.shutdownClosed ∧ r1.log = r.log := by
  obtain ⟨pc, client, target, copyRx, copyTx, bRx, bTx, cid, err, done, ops⟩ := h
  cases pc <;> simp only [Relay.handleConnection, Relay.wgAdd] at hs <;>
    (try split_ifs at hs) <;> (try split at hs) <;>
    simp [Res.bind] at hs <;> (try obtain ⟨rfl, rfl⟩ := hs) <;>
    simp_all [HPc.needsTarget, wrapUint64]

theorem le_total (f : Handler → Nat) (hs : List Handler) (i : Nat) (h : Handler)
    (hi : hs[i]? = some h) : f h ≤ total f hs := by
  have := total_le_at (fun _ => 0) f (fun _ => Nat.zero_le _) hs i h hi
  have h0 : total (fun _ => 0) hs = 0 := by
    induction hs with
    | nil => rfl
    | cons a l ih => simp [total]
  simp only [h0] at this
  omega

theorem folded_recvs (ok : Bool) (pc : HPc) :
    (foldedRx ok pc = true → recvs ok pc = 2) ∧ (foldedTx ok pc = true → recvs ok pc = 2) := by
  cases pc <;> cases ok <;> simp [foldedRx, foldedTx, recvs]

theorem copyDone_shares (cfg : Config) (h h1 : Handler) (d : Dir) (n : Nat) (err : Bool)
    (hi : HInv cfg h) (hs : h.copyDone d n err = .ok h1) :
    h1.pc = h.pc ∧ rxShare h1 = rxShare h ∧ txShare h1 = txShare h := by
  have hc := hi.chan
  have hf := folded_recvs h.target.isSome h.pc
  cases d
  · simp only [Handler.copyDone] at hs
    split at hs
    · rename_i hrun
      simp at hs; subst hs
      refine ⟨rfl, ?_, rfl⟩
      have hno : foldedRx h.target.isSome h.pc = false := by
        by_contra hfr
        simp at hfr
        have := hf.1 hfr
        simp only [hrun, CopyState.fin] at hc
        cases hct : h.copyTx <;> simp [hct] at hc <;> omega
      simp [rxShare, hno]
    · simp at hs
  · simp only [Handler.copyDone] at hs
    split at hs
    · rename_i hrun
      simp at hs; subst hs
      refine ⟨rfl, rfl, ?_⟩
      have hno : foldedTx h.target.isSome h.pc = false := by
        by_contra hfr
        simp at hfr
        have := hf.2 hfr
        simp only [hrun, CopyState.fin] at hc
        cases hct : h.copyRx <;> simp [hct] at hc <;> omega
      simp [txShare, hno]
    · simp at hs

theorem GInv_init (cfg : Config) : GInv cfg System.init := by
  constructor <;> simp [System.init, Relay.started, total, LoopPc.pending, LoopPc.conn]


theorem GInv_of_eq (cfg : Config) (s s1 : System) (hi : GInv cfg s)
    (hh : s1.handlers = s.handlers) (hwg : s1.r.wg = s.r.wg)
    (hp : s1.loop.pending = s.loop.pending) (ha : s1.r.activeConns = s.r.activeConns)
    (ht : s1.r.totalConns = s.r.totalConns) (hrx : s1.r.bytesRx = s.r.bytesRx)
    (htx : s1.r.bytesTx = s.r.bytesTx) (hrej : s1.rejected = s.rejected)
    (hc : ∀ c, s1.loop.conn = some c → c = Sock.fresh) : GInv cfg s1 :=
  { handlers_inv := by rw [hh]; exact hi.handlers_inv
    wg_eq := by rw [hh, hwg, hp]; exact hi.wg_eq
    wg_lt := by rw [hwg]; exact hi.wg_lt
    active_eq := by rw [hh, ha]; exact hi.active_eq
    total_eq := by rw [hh, ht]; exact hi.total_eq
    rx_eq := by rw [hh, hrx]; exact hi.rx_eq
    tx_eq := by rw [hh, htx]; exact hi.tx_eq
    loop_fresh := hc
    rejected_closed := by rw [hrej]; exact hi.rejected_closed }

theorem GInv_acceptLoop (cfg : Config) (s s1 : System) (ok : Bool) (hi : GInv cfg s)
    (hs : acceptLoop cfg s ok = .ok s1) : GInv cfg s1 := by
  have hfresh := hi.loop_fresh
  cases hl : s.loop with
  | top =>
    simp only [acceptLoop, hl] at hs
    split_ifs at hs <;> simp at hs <;> subst hs <;>
      exact GInv_of_eq cfg s _ hi rfl rfl (by simp [hl, LoopPc.pending]) rfl rfl rfl rfl rfl
        (by simp [LoopPc.conn])
  | accepting =>
    simp only [acceptLoop, hl] at hs
    split_ifs at hs <;> simp at hs <;> subst hs <;>
      exact GInv_of_eq cfg s _ hi rfl rfl (by simp [hl, LoopPc.pending]) rfl rfl rfl rfl rfl
        (by simp [LoopPc.conn])
  | accepted c =>
    have hc : c = Sock.fresh := hfresh c (by simp [hl, LoopPc.conn])
    simp only [acceptLoop, hl] at hs
    split_ifs at hs <;> simp at hs <;> subst hs <;>
      exact GInv_of_eq cfg s _ hi rfl rfl (by simp [hl, LoopPc.pending]) rfl rfl rfl rfl rfl
        (by simp [LoopPc.conn, hc])
  | rejecting c =>
    have hc : c = Sock.fresh := hfresh c (by simp [hl, LoopPc.conn])
    simp only [acceptLoop, hl] at hs
    simp at hs; subst hs
    exact
      { handlers_inv := hi.handlers_inv
        wg_eq := by have := hi.wg_eq; simpa [hl, LoopPc.pending] using this
        wg_lt := hi.wg_lt
        active_eq := hi.active_eq
        total_eq := hi.total_eq
        rx_eq := hi.rx_eq
        tx_eq := hi.tx_eq
        loop_fresh := by simp [LoopPc.conn]
        rejected_closed := by
          intro x hx
          simp only [List.mem_append, List.mem_singleton] at hx
          rcases hx with hx | hx
          · exact hi.rejected_closed x hx
          · rw [hx, hc] }
  | admitting c =>
    have hc : c = Sock.fresh := hfresh c (by simp [hl, LoopPc.conn])
    have hwg := hi.wg_eq
    have hlt := hi.wg_lt
    simp only [acceptLoop, hl, Relay.wgAdd] at hs
    split_ifs at hs with hneg <;> simp [Res.bind] at hs
    subst hs
    simp only [hl, LoopPc.pending] at hwg
    have hw : wrapInt32 (s.r.wg + 1) = s.r.wg + 1 := by
      unfold wrapInt32 at hneg ⊢; omega
    exact
      { handlers_inv := hi.handlers_inv
        wg_eq := by simp only [LoopPc.pending, hw]; omega
        wg_lt := wrapInt32_lt _
        active_eq := hi.active_eq
        total_eq := hi.total_eq
        rx_eq := hi.rx_eq
        tx_eq := hi.tx_eq
        loop_fresh := by simp [LoopPc.conn, hc]
        rejected_closed := hi.rejected_closed }
  | spawning c =>
    have hc : c = Sock.fresh := hfresh c (by simp [hl, LoopPc.conn])
    have hwg := hi.wg_eq
    simp only [acceptLoop, hl] at hs
    simp at hs; subst hs
    simp only [hl, LoopPc.pending] at hwg
    exact
      { handlers_inv := by
          intro x hx
          simp only [List.mem_append, List.mem_singleton] at hx
          rcases hx with hx | hx
          · exact hi.handlers_inv x hx
          · rw [hx, hc]; exact HInv_new cfg
        wg_eq := by
          simp only [total_append, LoopPc.pending]
          have : inFlight (Handler.new c) = 1 := rfl
          omega
        wg_lt := hi.wg_lt
        active_eq := by
          simp only [total_append]
          have : holdsSlot (Handler.new c) = 0 := rfl
          have := hi.active_eq
          omega
        total_eq := by
          have h0 : counted (Handler.new c) = 0 := rfl
          simp only [total_append, h0, Nat.add_zero]
          exact hi.total_eq
        rx_eq := by
          have h0 : rxShare (Handler.new c) = 0 := rfl
          simp only [total_append, h0, Nat.add_zero]
          exact hi.rx_eq
        tx_eq := by
          have h0 : txShare (Handler.new c) = 0 := rfl
          simp only [total_append, h0, Nat.add_zero]
          exact hi.tx_eq
        loop_fresh := by simp [LoopPc.conn]
        rejected_closed := hi.rejected_closed }
  | exited =>
    simp only [acceptLoop, hl] at hs
    simp at hs

theorem GInv_handler (cfg : Config) (s : System) (i : Nat) (now : Int) (ok : Bool) (h h1 : Handler)
    (r1 : Relay) (hi : GInv cfg s) (hget : s.handlers[i]? = some h)
    (hs : Relay.handleConnection cfg s.r h now ok = .ok (r1, h1)) :
    GInv cfg { s with r := r1, handlers := s.handlers.set i h1 } := by
  have hH := hi.handlers_inv h (mem_of_getElem? hget)
  have hwg := hi.wg_eq
  have hlt := hi.wg_lt
  have hact := hi.active_eq
  have b1 := le_total inFlight s.handlers i h hget
  have b2 := le_total holdsSlot s.handlers i h hget
  have b3 := total_le_at holdsSlot inFlight holdsSlot_le_inFlight s.handlers i h hget
  have c1 := hstep_wg cfg s.r r1 h h1 now ok (by omega) hlt hs
  have c2 := hstep_active cfg s.r r1 h h1 now ok hlt (by omega) (by omega) hs
  have t1 := total_set inFlight s.handlers i h h1 hget
  have t2 := total_set holdsSlot s.handlers i h h1 hget
  have f1 : r1.wg = (total inFlight (s.handlers.set i h1) : Int) + s.loop.pending := by omega
  have f2 : r1.wg < 2147483648 := by
    have : inFlight h1 ≤ 1 := by unfold inFlight; split <;> omega
    have : 1 ≤ inFlight h := by
      unfold inFlight
      cases hpc : h.pc <;> simp
      simp [Relay.handleConnection, hpc] at hs
    omega
  have f3 : r1.activeConns = (total holdsSlot (s.handlers.set i h1) : Int) := by omega
  have f4 : r1.totalConns = total counted (s.handlers.set i h1) % two64 := by
    have c3 := hstep_total cfg s.r r1 h h1 now ok hs
    have t3 := total_set counted s.handlers i h h1 hget
    have e3 := hi.total_eq
    simp only [two64] at c3 e3 ⊢
    obtain ⟨c3a, c3b⟩ := c3
    clear hwg hlt hact b1 b2 b3 c1 c2 t1 t2 f1 f2 f3
    split_ifs at c3a c3b <;> omega
  have f5 : r1.bytesRx = total rxShare (s.handlers.set i h1) % two64 := by
    have c4 := hstep_rx cfg s.r r1 h h1 now ok hH.target_pc hH.rx_bytes hs
    have t4 := total_set rxShare s.handlers i h h1 hget
    have e4 := hi.rx_eq
    simp only [two64] at c4 e4 ⊢
    obtain ⟨c4a, c4b⟩ := c4
    clear hwg hlt hact b1 b2 b3 c1 c2 t1 t2 f1 f2 f3 f4
    split_ifs at c4a c4b <;> omega
  have f6 : r1.bytesTx = total txShare (s.handlers.set i h1) % two64 := by
    have c5 := hstep_tx cfg s.r r1 h h1 now ok hH.target_pc hH.tx_bytes hs
    have t5 := total_set txShare s.handlers i h h1 hget
    have e5 := hi.tx_eq
    simp only [two64] at c5 e5 ⊢
    obtain ⟨c5a, c5b⟩ := c5
    clear hwg hlt hact b1 b2 b3 c1 c2 t1 t2 f1 f2 f3 f4 f5
    split_ifs at c5a c5b <;> omega
  exact
    { handlers_inv := by
        intro x hx
        rcases List.mem_or_eq_of_mem_set hx with hx | hx
        · exact hi.handlers_inv x hx
        · rw [hx]; exact HInv_handleConnection cfg s.r r1 h h1 now ok hH hs
      wg_eq := f1
      wg_lt := f2
      active_eq := f3
      total_eq := f4
      rx_eq := f5
      tx_eq := f6
      loop_fresh := hi.loop_fresh
      rejected_closed := hi.rejected_closed }

theorem GInv_copyDone (cfg : Config) (s : System) (i : Nat) (d : Dir) (n : Nat) (err : Bool)
    (h h1 : Handler) (hi : GInv cfg s) (hget : s.handlers[i]? = some h)
    (hs : h.copyDone d n err = .ok h1) : GInv cfg { s with handlers := s.handlers.set i h1 } := by
  have hH := hi.handlers_inv h (mem_of_getElem? hget)
  obtain ⟨hpc, hrx, htx⟩ := copyDone_shares cfg h h1 d n err hH hs
  have t1 := total_set inFlight s.handlers i h h1 hget
  have t2 := total_set holdsSlot s.handlers i h h1 hget
  have t3 := total_set counted s.handlers i h h1 hget
  have t4 := total_set rxShare s.handlers i h h1 hget
  have t5 := total_set txShare s.handlers i h h1 hget
  have p1 : inFlight h1 = inFlight h := by simp only [inFlight, hpc]
  have p2 : holdsSlot h1 = holdsSlot h := by simp only [holdsSlot, hpc]
  have p3 : counted h1 = counted h := by simp only [counted, hpc]
  have q1 : total inFlight (s.handlers.set i h1) = total inFlight s.handlers := by omega
  have q2 : total holdsSlot (s.handlers.set i h1) = total holdsSlot s.handlers := by omega
  have q3 : total counted (s.handlers.set i h1) = total counted s.handlers := by omega
  have q4 : total rxShare (s.handlers.set i h1) = total rxShare s.handlers := by omega
  have q5 : total txShare (s.handlers.set i h1) = total txShare s.handlers := by omega
  exact
    { handlers_inv := by
        intro x hx
        rcases List.mem_or_eq_of_mem_set hx with hx | hx
        · exact hi.handlers_inv x hx
        · rw [hx]; exact HInv_copyDone cfg h h1 d n err hH hs
      wg_eq := by show s.r.wg = _; rw [q1]; exact hi.wg_eq
      wg_lt := hi.wg_lt
      active_eq := by show s.r.activeConns = _; rw [q2]; exact hi.active_eq
      total_eq := by show s.r.totalConns = _; rw [q3]; exact hi.total_eq
      rx_eq := by show s.r.bytesRx = _; rw [q4]; exact hi.rx_eq
      tx_eq := by show s.r.bytesTx = _; rw [q5]; exact hi.tx_eq
      loop_fresh := hi.loop_fresh
      rejected_closed := hi.rejected_closed }

theorem GInv_Shutdown (cfg : Config) (s s1 : System) (t : Int) (v : Bool) (hi : GInv cfg s)
    (hs : Shutdown s t v = .ok s1) : GInv cfg s1 := by
  cases hsd : s.sd <;> simp only [Shutdown, hsd] at hs <;> (try split_ifs at hs) <;>
    simp at hs <;> subst hs <;>
    exact GInv_of_eq cfg s _ hi rfl rfl rfl rfl rfl rfl rfl rfl hi.loop_fresh

theorem GInv_waiterStep (cfg : Config) (s s1 : System) (hi : GInv cfg s)
    (hs : waiterStep s = .ok s1) : GInv cfg s1 := by
  cases hw : s.waiter <;> simp only [waiterStep, hw] at hs <;> (try split_ifs at hs) <;>
    simp at hs <;> subst hs <;>
    exact GInv_of_eq cfg s _ hi rfl rfl rfl rfl rfl rfl rfl rfl hi.loop_fresh

theorem GInv_step (cfg : Config) (s s1 : System) (a : Action) (hi : GInv cfg s)
    (hs : step cfg s a = .ok s1) : GInv cfg s1 := by
  cases a with
  | cancel =>
    simp [step] at hs; subst hs
    exact GInv_of_eq cfg s _ hi rfl rfl rfl rfl rfl rfl rfl rfl hi.loop_fresh
  | loop ok => exact GInv_acceptLoop cfg s s1 ok hi hs
  | handler i now ok =>
    simp only [step] at hs
    cases hget : s.handlers[i]? with
    | none => simp [hget] at hs
    | some h =>
      simp only [hget] at hs
      cases hr : Relay.handleConnection cfg s.r h now ok with
      | ok p =>
        simp [hr, Res.bind] at hs; subst hs
        exact GInv_handler cfg s i now ok h p.2 p.1 hi hget hr
      | blocked => simp [hr, Res.bind] at hs
      | panic m => simp [hr, Res.bind] at hs
  | copyDone i d n err =>
    simp only [step] at hs
    cases hget : s.handlers[i]? with
    | none => simp [hget] at hs
    | some h =>
      simp only [hget] at hs
      cases hr : h.copyDone d n err with
      | ok h1 =>
        simp [hr, Res.bind] at hs; subst hs
        exact GInv_copyDone cfg s i d n err h h1 hi hget hr
      | blocked => simp [hr, Res.bind] at hs
      | panic m => simp [hr, Res.bind] at hs
  | shutdown t v => exact GInv_Shutdown cfg s s1 t v hi hs
  | waiter => exact GInv_waiterStep cfg s s1 hi hs

theorem GInv_run (cfg : Config) (acts : List Action) (s s1 : System) (hi : GInv cfg s)
    (hs : run cfg s acts = .ok s1) : GInv cfg s1 := by
  induction acts generalizing s with
  | nil => simp [run] at hs; subst hs; exact hi
  | cons a rest ih =>
    simp only [run] at hs
    cases hst : step cfg s a with
    | ok s2 =>
      simp [hst, Res.bind] at hs
      exact ih s2 (GInv_step cfg s s2 a hi hst) hs
    | blocked => simp [hst, Res.bind] at hs
    | panic m => simp [hst, Res.bind] at hs

theorem GInv_of_reachable (cfg : Config) (s : System) (hr : Reachable cfg s) : GInv cfg s := by
  obtain ⟨acts, hacts⟩ := hr
  exact GInv_run cfg acts System.init s (GInv_init cfg) hacts

theorem run_append (cfg : Config) (s : System) (a b : List Action) :
    run cfg s (a ++ b) = (run cfg s a).bind fun s1 => run cfg s1 b := by
  induction a generalizing s with
  | nil => simp [run, Res.bind]
  | cons x rest ih =>
    simp only [List.cons_append, run]
    cases step cfg s x with
    | ok s2 => simp only [Res.bind]; exact ih s2
    | blocked => simp [Res.bind]
    | panic m => simp [Res.bind]

theorem set_self (hs : List Handler) (i : Nat) (h : Handler) (hi : hs[i]? = some h) :
    hs.set i h = hs := by
  induction hs generalizing i with
  | nil => simp at hi
  | cons a l ih =>
    cases i with
    | zero => simp at hi; subst hi; rfl
    | succ j => simp at hi; simp [ih j hi]

theorem getElem?_set_self (hs : List Handler) (i : Nat) (h h1 : Handler) (hi : hs[i]? = some h) :
    (hs.set i h1)[i]? = some h1 := by
  induction hs generalizing i with
  | nil => simp at hi
  | cons a l ih =>
    cases i with
    | zero => simp
    | succ j => simp at hi; simpa using ih j hi

theorem set_set_self (hs : List Handler) (i : Nat) (h1 h2 : Handler) :
    (hs.set i h1).set i h2 = hs.set i h2 := by
  induction hs generalizing i with
  | nil => simp
  | cons a l ih =>
    cases i with
    | zero => simp
    | succ j => simp [ih j]

/-- Running operations of one handler in a row is running `handleConnection`
on the relay and that handler. -/
theorem run_handlerActs (cfg : Config) (clock : Nat → Int) (ok : Bool) (i n : Nat) (s : System)
    (h : Handler) (hget : s.handlers[i]? = some h) :
    run cfg s (handlerActs i clock ok n) =
      (handlerRun cfg clock ok n (s.r, h)).bind fun p =>
        .ok { s with r := p.1, handlers := s.handlers.set i p.2 } := by
  induction n generalizing s h with
  | zero =>
    simp [handlerActs, handlerRun, run, Res.bind, set_self s.handlers i h hget]
  | succ n ih =>
    simp only [handlerActs, handlerRun, run, step, hget]
    cases hr : Relay.handleConnection cfg s.r h (clock n) ok with
    | ok p =>
      simp only [Res.bind]
      rw [ih _ p.2 (getElem?_set_self s.handlers i h p.2 hget)]
      cases handlerRun cfg clock ok n (p.1, p.2) with
      | ok q => simp [Res.bind, set_set_self]
      | blocked => simp [Res.bind]
      | panic m => simp [Res.bind]
    | blocked => simp [Res.bind]
    | panic m => simp [Res.bind]

theorem set_append_last (l : List Handler) (h h1 : Handler) :
    (l ++ [h]).set l.length h1 = l ++ [h1] := by
  induction l with
  | nil => rfl
  | cons a l ih => simp [ih]

/-- What the recorded operations of a handler say about its program counter:
how many times each counter operation, close and receive has been performed. -/
theorem opsAt_counts (cfg : Config) (ok : Bool) (pc : HPc)
    (hok : ∀ b, pc.needsTarget = some b → ok = b) :
    (opsAt cfg ok pc).count .activeInc = (if pc = .start then 0 else 1) ∧
    (opsAt cfg ok pc).count .activeDec = (if pc = .deferWg ∨ pc = .done then 1 else 0) ∧
    (opsAt cfg ok pc).count .wgDone = (if pc = .done then 1 else 0) ∧
    (opsAt cfg ok pc).count .totalInc = (if pc = .start ∨ pc = .countTotal then 0 else 1) ∧
    (opsAt cfg ok pc).count .bytesRxAdd = (if foldedRx ok pc then 1 else 0) ∧
    (opsAt cfg ok pc).count .bytesTxAdd = (if foldedTx ok pc then 1 else 0) ∧
    (opsAt cfg ok pc).count .recvDone = recvs ok pc ∧
    (opsAt cfg ok pc).count .clientClose = clientCloses ok pc ∧
    (ok = true → (opsAt cfg ok pc).count .targetClose = targetCloses pc) ∧
    (ok = false → (opsAt cfg ok pc).count .targetClose = 0) ∧
    (opsAt cfg ok pc).count .dial = (if pastClientDeadline pc ∧ pc ≠ .dial then 1 else 0) ∧
    (opsAt cfg ok pc).count .goRx = (if rxStarted ok pc then 1 else 0) ∧
    (opsAt cfg ok pc).count .goTx = (if txStarted ok pc then 1 else 0) := by
  by_cases hidle : cfg.IdleTimeoutSecs > 0 <;> cases ok <;> cases pc <;>
    simp [HPc.needsTarget] at hok <;>
    simp only [opsAt, opsHead, opsConnected, opsRelay, successOps, failureOps, hidle, if_true,
      if_false, foldedRx, foldedTx, recvs, clientCloses, targetCloses, pastClientDeadline,
      rxStarted, txStarted] <;>
    decide

/-- With `k` connections open and `k` below the limit, the accept loop admits
the next connection and its handler increments `activeConns`. -/
theorem run_admitAndStart (cfg : Config) (s : System) (k : Nat) (hb : Busy s k)
    (hk : (k : Int) < wrapInt32 cfg.MaxConns) (hk2 : (k : Int) + 1 < 2147483648) :
    ∃ s1, run cfg s (admitAndStart s.handlers.length) = .ok s1 ∧ Busy s1 (k + 1) ∧
      s1.r.totalConns = s.r.totalConns := by
  obtain ⟨q1, q2, q3, q4, q5, q6, q7, q8, q9⟩ := hb
  obtain ⟨r, ctx, loop, handlers, rejected, sd, grace, waiter⟩ := s
  simp only at q1 q2 q3 q4 q5 q6 q7 q8 q9
  subst q1 q2 q9
  have hge : ¬ (r.activeConns ≥ wrapInt32 cfg.MaxConns) := by omega
  have hw : wrapInt32 (r.wg + 1) = (k : Int) + 1 := by rw [q7]; unfold wrapInt32; omega
  have hw0 : ¬ ((k : Int) + 1 < 0) := by omega
  have ha : wrapInt32 (r.activeConns + 1) = (k : Int) + 1 := by
    rw [q6]; unfold wrapInt32; omega
  refine ⟨{ r := { r with wg := (k : Int) + 1, activeConns := (k : Int) + 1 }, ctxDone := false,
            loop := .top,
            handlers := handlers ++ [{ Handler.new Sock.fresh with
              pc := .countTotal, ops := [.activeInc] }],
            rejected := [], sd := sd, grace := grace, waiter := waiter }, ?_, ?_, rfl⟩
  · simp [admitAndStart, admitOne, run, step, acceptLoop, Res.bind, Relay.wgAdd, q3, q4, q5, hge,
      hw, hw0, ha, Relay.handleConnection, Handler.new, set_append_last]
  · exact ⟨rfl, rfl, q3, q4, q5, by simp, by simp, by simp [q8], rfl⟩

theorem run_admitAndStartMany (cfg : Config) (n : Nat) :
    ∀ (s : System) (k : Nat), Busy s k → ((k + n : Nat) : Int) ≤ wrapInt32 cfg.MaxConns →
      ∃ s1, run cfg s (admitAndStartMany s.handlers.length n) = .ok s1 ∧ Busy s1 (k + n) ∧
        s1.r.totalConns = s.r.totalConns := by
  induction n with
  | zero => intro s k hb _; exact ⟨s, rfl, hb, rfl⟩
  | succ n ih =>
    intro s k hb hle
    have hlt := wrapInt32_lt cfg.MaxConns
    obtain ⟨s1, h1, hb1, ht1⟩ := run_admitAndStart cfg s k hb (by omega) (by omega)
    obtain ⟨s2, h2, hb2, ht2⟩ := ih s1 (k + 1) hb1 (by omega)
    have hl : s1.handlers.length = s.handlers.length + 1 := by
      rw [hb1.2.2.2.2.2.2.2.1, hb.2.2.2.2.2.2.2.1]
    refine ⟨s2, ?_, ?_, by rw [ht2, ht1]⟩
    · simp only [admitAndStartMany]
      rw [run_append, h1]
      simp only [Res.bind]
      rw [← hl]; exact h2
    · have e : k + 1 + n = k + (n + 1) := by omega
      rw [← e]; exact hb2

/-- Sequential admission. When `MaxConns = N` fits in an `int32` and `N + 1`
connections are accepted one after another, none closing and each handler
incrementing `activeConns` before the next `Accept`, exactly `N` are admitted
and the next one is rejected: its socket is closed, no handler is started for
it and no counter changes. -/
theorem sequential_admission (cfg : Config) (N : Nat) (hN : cfg.MaxConns = N)
    (h2 : N ≤ 2147483647) :
    ∃ s, run cfg System.init (admitAndStartMany 0 N) = .ok s ∧ s.handlers.length = N ∧
      s.r.activeConns = N ∧ s.r.wg = N ∧ s.rejected = [] ∧
      ∃ s1, run cfg s rejectOne = .ok s1 ∧ s1.handlers = s.handlers ∧
        s1.rejected = [Sock.fresh.Close] ∧ s1.r.Stats = s.r.Stats ∧ s1.r.wg = s.r.wg := by
  have hw : wrapInt32 cfg.MaxConns = (N : Int) := by
    rw [hN]; exact wrapInt32_id _ (by omega) (by omega)
  have hb0 : Busy System.init 0 := ⟨rfl, rfl, rfl, rfl, rfl, rfl, rfl, rfl, rfl⟩
  obtain ⟨s, hrun, hb, -⟩ := run_admitAndStartMany cfg N System.init 0 hb0 (by rw [hw]; simp)
  rw [Nat.zero_add] at hb
  obtain ⟨q1, q2, q3, q4, q5, q6, q7, q8, q9⟩ := hb
  refine ⟨s, hrun, q8, q6, q7, q9, ?_⟩
  have hge : s.r.activeConns ≥ wrapInt32 cfg.MaxConns := by rw [hw, q6]
  refine ⟨{ s with r := s.r.logf .warn "connection limit reached, rejecting"
                     [("active_conns", s.r.activeConns), ("max_conns", cfg.MaxConns)]
                   rejected := s.rejected ++ [Sock.fresh.Close] }, ?_, rfl, ?_, rfl, rfl⟩
  · simp [rejectOne, run, step, acceptLoop, Res.bind, q1, q2, q3, q4, q5, hge]
  · show s.rejected ++ [Sock.fresh.Close] = [Sock.fresh.Close]
    rw [q9]; rfl

theorem mapIndex_validLogLevels (l : String) :
    mapIndex validLogLevels l = true ↔
      (l = "debug" ∨ l = "info" ∨ l = "warn" ∨ l = "error") := by
  unfold mapIndex validLogLevels
  by_cases h1 : l = "debug"
  · subst h1; decide
  by_cases h2 : l = "info"
  · subst h2; decide
  by_cases h3 : l = "warn"
  · subst h3; decide
  by_cases h4 : l = "error"
  · subst h4; decide
  have e1 : ("debug" == l) = false := by simpa using fun h => h1 h.symm
  have e2 : ("info" == l) = false := by simpa using fun h => h2 h.symm
  have e3 : ("warn" == l) = false := by simpa using fun h => h3 h.symm
  have e4 : ("error" == l) = false := by simpa using fun h => h4 h.symm
  simp [List.find?, e1, e2, e3, e4, h1, h2, h3, h4]

/-- C9. `Config.Validate` returns `nil` exactly for the configurations with both
ports in `1..65535`, a non-empty target address, `MaxConns >= 1`, the three
durations non-negative and a log level among debug, info, warn and error;
otherwise it returns the error of the first violated condition in that order;
and it accepts `DefaultConfig()`. -/
theorem validate_accepts_exactly_valid (c : Config) :
    (c.Validate = none ↔
      (1 ≤ c.ListenPort ∧ c.ListenPort ≤ 65535 ∧ 1 ≤ c.TargetPort ∧ c.TargetPort ≤ 65535 ∧
        c.TargetAddr ≠ "" ∧ 1 ≤ c.MaxConns ∧ 0 ≤ c.IdleTimeoutSecs ∧ 0 ≤ c.ConnectTimeoutSecs ∧
        0 ≤ c.ShutdownGraceSecs ∧
        (c.LogLevel = "debug" ∨ c.LogLevel = "info" ∨ c.LogLevel = "warn" ∨
          c.LogLevel = "error"))) ∧
    c.Validate = c.firstViolation ∧
    DefaultConfig.Validate = none := by
  have hl := mapIndex_validLogLevels c.LogLevel
  refine ⟨?_, ?_, by decide⟩
  · unfold Config.Validate
    split_ifs <;> simp_all <;> omega
  · by_cases h1 : 1 ≤ c.ListenPort ∧ c.ListenPort ≤ 65535
    swap
    · have n1 : c.ListenPort < 1 ∨ c.ListenPort > 65535 := by omega
      simp [Config.Validate, Config.firstViolation, Config.conditions, List.find?, h1, n1]
    have n1 : ¬ (c.ListenPort < 1 ∨ c.ListenPort > 65535) := by omega
    by_cases h2 : 1 ≤ c.TargetPort ∧ c.TargetPort ≤ 65535
    swap
    · have n2 : c.TargetPort < 1 ∨ c.TargetPort > 65535 := by omega
      simp [Config.Validate, Config.firstViolation, Config.conditions, List.find?, h1, n1, h2, n2]
    have n2 : ¬ (c.TargetPort < 1 ∨ c.TargetPort > 65535) := by omega
    by_cases h3 : c.TargetAddr = ""
    · simp [Config.Validate, Config.firstViolation, Config.conditions, List.find?, h1, n1, h2, n2, h3]
    by_cases h4 : 1 ≤ c.MaxConns
    swap
    · have n4 : c.MaxConns < 1 := by omega
      simp [Config.Validate, Config.firstViolation, Config.conditions, List.find?, h1, n1, h2, n2, h3,
        h4, n4]
    have n4 : ¬ c.MaxConns < 1 := by omega
    by_cases h5 : 0 ≤ c.IdleTimeoutSecs
    swap
    · have n5 : c.IdleTimeoutSecs < 0 := by omega
      simp [Config.Validate, Config.firstViolation, Config.conditions, List.find?, h1, n1, h2, n2, h3,
        h4, n4, h5, n5]
    have n5 : ¬ c.IdleTimeoutSecs < 0 := by omega
    by_cases h6 : 0 ≤ c.ConnectTimeoutSecs
    swap
    · have n6 : c.ConnectTimeoutSecs < 0 := by omega
      simp [Config.Validate, Config.firstViolation, Config.conditions, List.find?, h1, n1, h2, n2, h3,
        h4, n4, h5, n5, h6, n6]
    have n6 : ¬ c.ConnectTimeoutSecs < 0 := by omega
    by_cases h7 : 0 ≤ c.ShutdownGraceSecs
    swap
    · have n7 : c.ShutdownGraceSecs < 0 := by omega
      simp [Config.Validate, Config.firstViolation, Config.conditions, List.find?, h1, n1, h2, n2, h3,
        h4, n4, h5, n5, h6, n6, h7, n7]
    have n7 : ¬ c.ShutdownGraceSecs < 0 := by omega
    by_cases h8 : c.LogLevel = "debug" ∨ c.LogLevel = "info" ∨ c.LogLevel = "warn" ∨
        c.LogLevel = "error"
    · have n8 : mapIndex validLogLevels c.LogLevel = true := hl.mpr h8
      simp [Config.Validate, Config.firstViolation, Config.conditions, List.find?, h1, n1, h2, n2, h3,
        h4, n4, h5, n5, h6, n6, h7, n7, h8, n8]
    · have n8 : mapIndex validLogLevels c.LogLevel = false := by
        cases hm : mapIndex validLogLevels c.LogLevel
        · rfl
        · exact absurd (hl.mp hm) h8
      simp [Config.Validate, Config.firstViolation, Config.conditions, List.find?, h1, n1, h2, n2, h3,
        h4, n4, h5, n5, h6, n6, h7, n7, h8, n8]

/-- The admission check of `acceptLoop` when `MaxConns` fits in an `int32`: the
connection is rejected iff `active >= MaxConns`, and is otherwise passed on to
`wg.Add(1)`; neither way changes a counter, a handler or a socket. A rejected
connection is then closed and nothing else happens; for an admitted one the
join counter is incremented and exactly one handler is started. -/
theorem admission_decision_in_range (cfg : Config) (s : System) (c : Sock) (ok : Bool)
    (hmax : cfg.MaxConns ≤ 2147483647) (hmin : -2147483648 ≤ cfg.MaxConns)
    (hl : s.loop = .accepted c) :
    (∃ s1, acceptLoop cfg s ok = .ok s1 ∧
      (s1.loop = .rejecting c ↔ s.r.activeConns ≥ cfg.MaxConns) ∧
      (s1.loop = .admitting c ↔ s.r.activeConns < cfg.MaxConns) ∧
      s1.r.Stats = s.r.Stats ∧ s1.r.wg = s.r.wg ∧ s1.handlers = s.handlers ∧
      s1.rejected = s.rejected) ∧
    (s.r.activeConns ≥ cfg.MaxConns →
      ∃ s2, run cfg s [.loop ok, .loop ok] = .ok s2 ∧ s2.loop = .top ∧
        s2.rejected = s.rejected ++ [c.Close] ∧ s2.handlers = s.handlers ∧
        s2.r.Stats = s.r.Stats ∧ s2.r.wg = s.r.wg) ∧
    (s.r.activeConns < cfg.MaxConns → 0 ≤ s.r.wg → s.r.wg + 1 < 2147483648 →
      ∃ s3, run cfg s [.loop ok, .loop ok, .loop ok] = .ok s3 ∧ s3.loop = .top ∧
        s3.handlers = s.handlers ++ [Handler.new c] ∧ s3.rejected = s.rejected ∧
        s3.r.Stats = s.r.Stats ∧ s3.r.wg = s.r.wg + 1) := by
  have hw : wrapInt32 cfg.MaxConns = cfg.MaxConns := wrapInt32_id _ hmin (by omega)
  refine ⟨?_, ?_, ?_⟩
  · simp only [acceptLoop, hl, hw]
    by_cases hge : s.r.activeConns ≥ cfg.MaxConns
    · simp [hge, Relay.logf, Relay.Stats]
    · simp [hge, Relay.Stats]
      omega
  · intro hge
    simp [run, step, acceptLoop, Res.bind, hl, hw, hge, Relay.logf, Relay.Stats]
  · intro hlt h0 h1
    have hge : ¬ (s.r.activeConns ≥ cfg.MaxConns) := by omega
    have hw1 : wrapInt32 (s.r.wg + 1) = s.r.wg + 1 := wrapInt32_id _ (by omega) h1
    have hw2 : ¬ (s.r.wg + 1 < 0) := by omega
    simp [run, step, acceptLoop, Res.bind, hl, hw, hge, hw1, hw2, Relay.wgAdd, Relay.Stats]

/-- C1 (the code departs from the claim). With `MaxConns = 2147483648`, which
`Validate` accepts, the first connection is rejected although the active count
read at the check is `0`, below `MaxConns`: the check compares with
`int32(MaxConns)`, which is negative. The socket is closed, no handler is
started and no counter changes. -/
theorem admission_rejects_below_limit :
    cfgHugeMax.Validate = none ∧ wrapInt32 cfgHugeMax.MaxConns = -2147483648 ∧
    ∃ s, run cfgHugeMax System.init [.loop true, .loop true, .loop true] = .ok s ∧
      s.loop = .rejecting Sock.fresh ∧ s.r.activeConns = 0 ∧
      s.r.activeConns < cfgHugeMax.MaxConns ∧
      ∃ s1, step cfgHugeMax s (.loop true) = .ok s1 ∧ s1.loop = .top ∧
        s1.rejected = [Sock.fresh.Close] ∧ s1.handlers = [] ∧ s1.r.Stats = (0, 0, 0, 0) ∧
        s1.r.wg = 0 := by
  refine ⟨by decide, by decide, _, rfl, by decide, by decide, by decide, _, rfl, ?_⟩
  decide

/-- C2 (the code departs from the claim). With `MaxConns = 1`, the accept loop
admits a second connection before the handler of the first one has incremented
`activeConns`: two handlers are then in flight, and `activeConns` reaches `2`.
When the first handler increments before the second check, the second
connection is rejected. -/
theorem over_admission :
    cfgOne.Validate = none ∧ cfgOne.MaxConns = 1 ∧
    (∃ s, run cfgOne System.init
        (admitOne ++ admitOne ++ [.handler 0 0 true, .handler 1 0 true]) = .ok s ∧
      total inFlight s.handlers = 2 ∧ s.r.wg = 2 ∧ s.r.activeConns = 2 ∧ s.rejected = []) ∧
    (∃ s, run cfgOne System.init
        (admitOne ++ [.handler 0 0 true] ++ [.loop true, .loop true, .loop true, .loop true]) =
          .ok s ∧
      total inFlight s.handlers = 1 ∧ s.r.activeConns = 1 ∧ s.rejected = [Sock.fresh.Close]) := by
  refine ⟨by decide, rfl, ⟨_, rfl, ?_⟩, ⟨_, rfl, ?_⟩⟩ <;> decide

/-- The product `time.Duration(secs) * time.Second` is exact up to
`9223372036` seconds. -/
theorem durationOfSecs_in_range (secs : Int) (h0 : 0 ≤ secs) (h1 : secs ≤ 9223372036) :
    durationOfSecs secs = secs * 1000000000 := by
  unfold durationOfSecs wrapInt64 timeSecond
  omega

/-- The deadline operations of the handler: with `IdleTimeoutSecs > 0` the
client deadline is set to the clock reading plus the duration computed from
`IdleTimeoutSecs`, and likewise for the target; with `IdleTimeoutSecs = 0`
neither socket is touched. -/
theorem deadline_steps (cfg : Config) (r : Relay) (h : Handler) (now : Int) (ok : Bool) :
    (h.pc = .clientDeadline →
      ∃ h1, Relay.handleConnection cfg r h now ok = .ok (r, h1) ∧ h1.pc = .dial ∧
        h1.target = h.target ∧
        h1.client.deadlines = h.client.deadlines ++
          (if cfg.IdleTimeoutSecs > 0 then [now + durationOfSecs cfg.IdleTimeoutSecs] else [])) ∧
    (h.pc = .targetDeadline →
      ∃ h1, Relay.handleConnection cfg r h now ok = .ok (r, h1) ∧ h1.pc = .spawnRx ∧
        h1.client = h.client ∧
        ∀ t, h.target = some t → ∃ t1, h1.target = some t1 ∧
          t1.deadlines = t.deadlines ++
            (if cfg.IdleTimeoutSecs > 0 then [now + durationOfSecs cfg.IdleTimeoutSecs] else [])) := by
  constructor
  · intro hpc
    by_cases hidle : cfg.IdleTimeoutSecs > 0 <;>
      simp [Relay.handleConnection, hpc, hidle, Sock.SetDeadline]
  · intro hpc
    by_cases hidle : cfg.IdleTimeoutSecs > 0 <;>
      simp [Relay.handleConnection, hpc, hidle, Sock.SetDeadline] <;>
      exact fun t ht => ⟨t, ht, rfl⟩

/-- C10 (the code departs from the claim). With `IdleTimeoutSecs = 9223372037`,
which `Validate` accepts, the product `time.Duration(IdleTimeoutSecs) *
time.Second` overflows `int64` and is negative, so the deadline the handler sets
on the client socket, and after the dial on the target socket, lies before the
clock reading instead of `IdleTimeoutSecs` seconds after it. -/
theorem idle_deadline_overflows :
    cfgLongIdle.Validate = none ∧
    durationOfSecs cfgLongIdle.IdleTimeoutSecs = -9223372036709551616 ∧
    (∀ (r : Relay) (now : Int), ∃ h1,
      Relay.handleConnection cfgLongIdle r { Handler.new Sock.fresh with pc := .clientDeadline }
        now true = .ok (r, h1) ∧
      h1.client.deadlines = [now - 9223372036709551616] ∧
      h1.client.deadlines ≠ [now + cfgLongIdle.IdleTimeoutSecs * 1000000000]) ∧
    (∀ (r : Relay) (now : Int), ∃ h1,
      Relay.handleConnection cfgLongIdle r
        { Handler.new Sock.fresh with pc := .targetDeadline, target := some Sock.fresh }
        now true = .ok (r, h1) ∧
      h1.target.map Sock.deadlines = some [now - 9223372036709551616]) := by
  have hd : durationOfSecs cfgLongIdle.IdleTimeoutSecs = -9223372036709551616 := by decide
  have hpos : cfgLongIdle.IdleTimeoutSecs > 0 := by decide
  refine ⟨by decide, hd, ?_, ?_⟩
  · intro r now
    refine ⟨{ Handler.new Sock.fresh with
        pc := .dial
        client := Sock.fresh.SetDeadline (now + durationOfSecs cfgLongIdle.IdleTimeoutSecs)
        ops := [.clientSetDeadline] }, ?_, ?_, ?_⟩
    · simp only [Relay.handleConnection, hpos, if_true]; rfl
    · simp [Sock.fresh, Sock.SetDeadline, hd]; omega
    · have hv : cfgLongIdle.IdleTimeoutSecs = 9223372037 := rfl
      simp [Sock.fresh, Sock.SetDeadline, hd]
      omega
  · intro r now
    refine ⟨{ Handler.new Sock.fresh with
        pc := .spawnRx
        target := some (Sock.fresh.SetDeadline (now + durationOfSecs cfgLongIdle.IdleTimeoutSecs))
        ops := [.targetSetDeadline] }, ?_, ?_⟩
    · simp only [Relay.handleConnection, hpos, if_true]; rfl
    · simp [Sock.fresh, Sock.SetDeadline, hd]; omega

/-- The deadlines are set once and never refreshed: in every reachable state the
client socket of a handler carries one deadline when `IdleTimeoutSecs > 0` and
the handler is past that operation, none otherwise, and the same holds for the
target socket once it exists. -/
theorem deadlines_set_once (cfg : Config) (s : System) (hr : Reachable cfg s) :
    ∀ h ∈ s.handlers,
      h.client.deadlines.length =
        (if cfg.IdleTimeoutSecs > 0 ∧ pastClientDeadline h.pc = true then 1 else 0) ∧
      (∀ t, h.target = some t → t.deadlines.length =
        (if cfg.IdleTimeoutSecs > 0 ∧ pastTargetDeadline h.pc = true then 1 else 0)) ∧
      (Op.dial ∈ h.ops → pastClientDeadline h.pc = true) := by
  intro h hh
  have hH := (GInv_of_reachable cfg s hr).handlers_inv h hh
  refine ⟨hH.client_dl, hH.target_dl, ?_⟩
  intro hd
  have hc := opsAt_counts cfg h.target.isSome h.pc (fun b hb => hH.target_pc b hb)
  rw [← hH.ops_eq] at hc
  obtain ⟨-, -, -, -, -, -, -, -, -, -, hc11, -, -⟩ := hc
  have h1 : 0 < h.ops.count .dial := List.count_pos_iff.mpr hd
  rw [hc11] at h1
  by_cases hp : pastClientDeadline h.pc = true
  · exact hp
  · simp [hp] at h1

theorem total_congr (f g : Handler → Nat) (hs : List Handler) (hfg : ∀ h ∈ hs, f h = g h) :
    total f hs = total g hs := by
  induction hs with
  | nil => rfl
  | cons a l ih =>
    have h1 := hfg a (List.mem_cons_self a l)
    have h2 := ih (fun h hh => hfg h (List.mem_cons_of_mem a hh))
    simp only [total, List.map_cons, List.sum_cons] at h2 ⊢
    omega

/-- A step that is not an operation of a handler leaves the four statistics
counters unchanged. -/
theorem step_stats_of_not_handler (cfg : Config) (s s1 : System) (a : Action)
    (hs : step cfg s a = .ok s1) (hna : ∀ i now ok, a ≠ .handler i now ok) :
    s1.r.Stats = s.r.Stats := by
  cases a with
  | cancel => simp [step] at hs; subst hs; rfl
  | loop ok =>
    simp only [step, acceptLoop, Relay.wgAdd] at hs
    cases hl : s.loop <;> simp only [hl] at hs <;> (try split_ifs at hs) <;>
      simp [Res.bind] at hs <;> subst hs <;> rfl
  | handler i now ok => exact absurd rfl (hna i now ok)
  | copyDone i d n err =>
    simp only [step] at hs
    cases hget : s.handlers[i]? with
    | none => simp [hget] at hs
    | some h =>
      simp only [hget] at hs
      cases hr : h.copyDone d n err with
      | ok h1 => simp [hr, Res.bind] at hs; subst hs; rfl
      | blocked => simp [hr, Res.bind] at hs
      | panic m => simp [hr, Res.bind] at hs
  | shutdown t v =>
    simp only [step, Shutdown] at hs
    cases hsd : s.sd <;> simp only [hsd] at hs <;> (try split_ifs at hs) <;>
      simp at hs <;> subst hs <;> rfl
  | waiter =>
    simp only [step, waiterStep] at hs
    cases hw : s.waiter <;> simp only [hw] at hs <;> (try split_ifs at hs) <;>
      simp at hs <;> subst hs <;> rfl

/-- A step of a handler, spelled out. -/
theorem step_handler_eq (cfg : Config) (s s1 : System) (i : Nat) (now : Int) (ok : Bool)
    (h : Handler) (hget : s.handlers[i]? = some h) (hs : step cfg s (.handler i now ok) = .ok s1) :
    ∃ h1, Relay.handleConnection cfg s.r h now ok = .ok (s1.r, h1) ∧
      s1.handlers = s.handlers.set i h1 := by
  simp only [step, hget] at hs
  cases hr : Relay.handleConnection cfg s.r h now ok with
  | ok p =>
    simp [hr, Res.bind] at hs; subst hs
    exact ⟨p.2, rfl, rfl⟩
  | blocked => simp [hr, Res.bind] at hs
  | panic m => simp [hr, Res.bind] at hs

theorem fin_eq_one (c : CopyState) (h : c.fin = 1) : ∃ n, c = .finished n := by
  cases c with
  | idle => simp [CopyState.fin] at h
  | running => simp [CopyState.fin] at h
  | finished n => exact ⟨n, rfl⟩

theorem fin_le_one (c : CopyState) : c.fin ≤ 1 := by
  cases c <;> simp [CopyState.fin]

/-- Once a handler has received both completion reports, both copy goroutines
have returned. -/
theorem both_reported (cfg : Config) (h : Handler) (hi : HInv cfg h)
    (hr : recvs h.target.isSome h.pc = 2) :
    ∃ n m, h.copyRx = .finished n ∧ h.copyTx = .finished m := by
  have hc := hi.chan
  have h1 := fin_le_one h.copyRx
  have h2 := fin_le_one h.copyTx
  obtain ⟨n, hn⟩ := fin_eq_one h.copyRx (by omega)
  obtain ⟨m, hm⟩ := fin_eq_one h.copyTx (by omega)
  exact ⟨n, m, hn, hm⟩

/-- C6. In every reachable state `bytesRx` and `bytesTx` are, modulo `2^64`, the
sums of the byte counts the copy goroutines reported, over the handlers that
have folded them in; a handler folds each count exactly once, and only when it
has received both completion reports, both copies having returned; the step
that folds adds exactly the reported count; no other step changes the two
counters; and when no handler is between folding and returning, the counters
are the sums over the completed connections. -/
theorem bytes_accounting (cfg : Config) (s : System) (hr : Reachable cfg s) :
    s.r.bytesRx = total rxShare s.handlers % two64 ∧
    s.r.bytesTx = total txShare s.handlers % two64 ∧
    (∀ h ∈ s.handlers,
      h.ops.count .bytesRxAdd = (if foldedRx h.target.isSome h.pc then 1 else 0) ∧
      h.ops.count .bytesTxAdd = (if foldedTx h.target.isSome h.pc then 1 else 0) ∧
      (Op.bytesRxAdd ∈ h.ops ∨ Op.bytesTxAdd ∈ h.ops →
        h.ops.count .recvDone = 2 ∧ ∃ n m, h.copyRx = .finished n ∧ h.copyTx = .finished m) ∧
      (h.pc = .done → h.target.isSome = true →
        rxShare h = h.copyRx.reported ∧ txShare h = h.copyTx.reported)) ∧
    (∀ i now ok h s1, s.handlers[i]? = some h → step cfg s (.handler i now ok) = .ok s1 →
      s1.r.bytesRx =
        (if h.pc = .addRx then (s.r.bytesRx + h.copyRx.reported) % two64 else s.r.bytesRx) ∧
      s1.r.bytesTx =
        (if h.pc = .addTx then (s.r.bytesTx + h.copyTx.reported) % two64 else s.r.bytesTx) ∧
      (h.pc = .addRx ∨ h.pc = .addTx →
        h.ops.count .recvDone = 2 ∧ ∃ n m, h.copyRx = .finished n ∧ h.copyTx = .finished m)) ∧
    (∀ a s1, step cfg s a = .ok s1 → (∀ i now ok, a ≠ .handler i now ok) →
      s1.r.bytesRx = s.r.bytesRx ∧ s1.r.bytesTx = s.r.bytesTx) ∧
    ((∀ h ∈ s.handlers, h.pc = .done ∨ foldedRx h.target.isSome h.pc = false) →
      s.r.bytesRx = total completedRx s.handlers % two64 ∧
      s.r.bytesTx = total completedTx s.handlers % two64) := by
  have hg := GInv_of_reachable cfg s hr
  refine ⟨hg.rx_eq, hg.tx_eq, ?_, ?_, ?_, ?_⟩
  · intro h hh
    have hH := hg.handlers_inv h hh
    have hc := opsAt_counts cfg h.target.isSome h.pc (fun b hb => hH.target_pc b hb)
    rw [← hH.ops_eq] at hc
    obtain ⟨-, -, -, -, hc5, hc6, hc7, -⟩ := hc
    have hf := folded_recvs h.target.isSome h.pc
    refine ⟨hc5, hc6, ?_, ?_⟩
    · intro hm
      have hrec : recvs h.target.isSome h.pc = 2 := by
        rcases hm with hm | hm
        · have h1 : 0 < h.ops.count .bytesRxAdd := List.count_pos_iff.mpr hm
          rw [hc5] at h1
          by_cases hfr : foldedRx h.target.isSome h.pc = true
          · exact hf.1 hfr
          · simp [hfr] at h1
        · have h1 : 0 < h.ops.count .bytesTxAdd := List.count_pos_iff.mpr hm
          rw [hc6] at h1
          by_cases hfr : foldedTx h.target.isSome h.pc = true
          · exact hf.2 hfr
          · simp [hfr] at h1
      exact ⟨by rw [hc7, hrec], both_reported cfg h hH hrec⟩
    · intro hpc hsome
      simp [rxShare, txShare, hpc, hsome, foldedRx, foldedTx]
  · intro i now ok h s1 hget hs
    have hH := hg.handlers_inv h (mem_of_getElem? hget)
    obtain ⟨h1, hr1, -⟩ := step_handler_eq cfg s s1 i now ok h hget hs
    obtain ⟨c4, -⟩ := hstep_rx cfg s.r s1.r h h1 now ok hH.target_pc hH.rx_bytes hr1
    obtain ⟨c5, -⟩ := hstep_tx cfg s.r s1.r h h1 now ok hH.target_pc hH.tx_bytes hr1
    refine ⟨c4, c5, ?_⟩
    intro hpc
    have hc := opsAt_counts cfg h.target.isSome h.pc (fun b hb => hH.target_pc b hb)
    rw [← hH.ops_eq] at hc
    obtain ⟨-, -, -, -, -, -, hc7, -⟩ := hc
    have hsome : h.target.isSome = true := by
      rcases hpc with hpc | hpc <;> exact hH.target_pc true (by simp [hpc, HPc.needsTarget])
    have hrec : recvs h.target.isSome h.pc = 2 := by
      rcases hpc with hpc | hpc <;> simp [hpc, hsome, recvs]
    exact ⟨by rw [hc7, hrec], both_reported cfg h hH hrec⟩
  · intro a s1 hs hna
    have := step_stats_of_not_handler cfg s s1 a hs hna
    simp only [Relay.Stats, Prod.mk.injEq] at this
    exact ⟨this.2.2.1, this.2.2.2⟩
  · intro hall
    have e1 : total rxShare s.handlers = total completedRx s.handlers := by
      apply total_congr
      intro h hh
      rcases hall h hh with hd | hf
      · cases hsome : h.target.isSome <;> simp [rxShare, completedRx, hd, hsome, foldedRx]
      · have hnd : h.pc ≠ .done ∨ h.target.isSome = false := by
          by_cases hd : h.pc = .done
          · right
            simpa [hd, foldedRx] using hf
          · exact Or.inl hd
        rcases hnd with hnd | hnd
        · simp [rxShare, completedRx, hf, hnd]
        · have hf2 := hf
          rw [hnd] at hf2
          simp [rxShare, completedRx, hnd, hf2]
    have e2 : total txShare s.handlers = total completedTx s.handlers := by
      apply total_congr
      intro h hh
      rcases hall h hh with hd | hf
      · cases hsome : h.target.isSome <;> simp [txShare, completedTx, hd, hsome, foldedTx]
      · have hft : foldedTx h.target.isSome h.pc = false := by
          cases hpc : h.pc <;> cases hsome : h.target.isSome <;>
            simp [hpc, hsome, foldedRx, foldedTx] at hf ⊢
        have hnd : h.pc ≠ .done ∨ h.target.isSome = false := by
          by_cases hd : h.pc = .done
          · right
            simpa [hd, foldedRx] using hf
          · exact Or.inl hd
        rcases hnd with hnd | hnd
        · simp [txShare, completedTx, hft, hnd]
        · have hf2 := hft
          rw [hnd] at hf2
          simp [txShare, completedTx, hnd, hf2]
    rw [← e1, ← e2]
    exact ⟨hg.rx_eq, hg.tx_eq⟩

/-- The three operations that follow the first completion report. -/
theorem handlerRun_first_report (cfg : Config) (clock : Nat → Int) (ok : Bool) (r : Relay)
    (h : Handler) (e : Bool) (rest : List Bool) (hpc : h.pc = .waitFirst)
    (hd : h.done = e :: rest) :
    handlerRun cfg clock ok 3 (r, h) =
      .ok (r, { h with pc := .waitSecond, err := e, done := rest, client := h.client.Close,
                       target := h.target.map Sock.Close,
                       ops := h.ops ++ [.recvDone, .clientClose, .targetClose] }) := by
  simp [handlerRun, Relay.handleConnection, hpc, hd, Res.bind]

/-- C7. For every handler whose dial succeeded, under every schedule: no socket
is closed before the first completion report is received; when the handler
waits for the second report it has closed the client socket and the target
socket once each, right after the first report; once it has returned, both
sockets have been closed. Whichever copy reports first, its report enables the
handler, which then receives it and closes both sockets before it waits again. -/
theorem sockets_closed_together (cfg : Config) (s : System) (hr : Reachable cfg s) :
    (∀ h ∈ s.handlers, ∀ t, h.target = some t →
      h.client.closeCalls = h.ops.count .clientClose ∧
      t.closeCalls = h.ops.count .targetClose ∧
      (h.ops.count .recvDone = 0 → h.client.closeCalls = 0 ∧ t.closeCalls = 0) ∧
      (h.pc = .waitSecond →
        h.ops.count .recvDone = 1 ∧ h.client.closeCalls = 1 ∧ t.closeCalls = 1 ∧
        h.ops = opsConnected cfg ++ [.goRx, .goTx, .recvDone, .clientClose, .targetClose]) ∧
      (h.ops.count .recvDone = 2 → 1 ≤ h.client.closeCalls ∧ 1 ≤ t.closeCalls) ∧
      (h.pc = .done →
        h.client.closeCalls = 2 ∧ t.closeCalls = 2 ∧ h.ops = successOps cfg)) ∧
    (∀ i h d n err s1, s.handlers[i]? = some h → h.pc = .waitFirst →
      step cfg s (.copyDone i d n err) = .ok s1 →
      ∃ h1, s1.handlers[i]? = some h1 ∧ h1.pc = .waitFirst ∧ h1.done ≠ [] ∧
        h1.client = h.client ∧ h1.target = h.target) ∧
    (∀ i h clock ok, s.handlers[i]? = some h → h.pc = .waitFirst → h.done ≠ [] →
      ∃ s1 h1, run cfg s (handlerActs i clock ok 3) = .ok s1 ∧
        s1.handlers[i]? = some h1 ∧ h1.pc = .waitSecond ∧
        h1.client = h.client.Close ∧ h1.target = h.target.map Sock.Close ∧
        h1.ops = h.ops ++ [.recvDone, .clientClose, .targetClose]) := by
  have hg := GInv_of_reachable cfg s hr
  refine ⟨?_, ?_, ?_⟩
  · intro h hh t ht
    have hH := hg.handlers_inv h hh
    have hsome : h.target.isSome = true := by simp [ht]
    have hc := opsAt_counts cfg h.target.isSome h.pc (fun b hb => hH.target_pc b hb)
    rw [← hH.ops_eq] at hc
    obtain ⟨-, -, -, -, -, -, hc7, hc8, hc9, -⟩ := hc
    have e1 := hH.client_close
    have e2 := hH.target_close t ht
    have e3 := hc9 hsome
    have e4 := hH.ops_eq
    rw [hsome] at hc7 hc8 e1 e4
    refine ⟨by omega, by omega, ?_, ?_, ?_, ?_⟩
    · intro h0
      rw [hc7] at h0; rw [e1, e2]
      cases hpc : h.pc <;> simp [hpc, recvs, clientCloses, targetCloses] at h0 ⊢
    · intro hpc
      rw [hc7, e1, e2, e4, hpc]
      exact ⟨rfl, rfl, rfl, rfl⟩
    · intro h2
      rw [hc7] at h2; rw [e1, e2]
      cases hpc : h.pc <;> simp [hpc, recvs, clientCloses, targetCloses] at h2 ⊢
    · intro hpc
      rw [e1, e2, e4, hpc]
      exact ⟨rfl, rfl, rfl⟩
  · intro i h d n err s1 hget hpc hs
    simp only [step, hget] at hs
    cases hr1 : h.copyDone d n err with
    | ok h1 =>
      simp [hr1, Res.bind] at hs; subst hs
      refine ⟨h1, getElem?_set_self s.handlers i h h1 hget, ?_⟩
      cases d <;> simp only [Handler.copyDone] at hr1 <;> split_ifs at hr1 <;>
        simp at hr1 <;> subst hr1 <;> simp [hpc]
    | blocked => simp [hr1, Res.bind] at hs
    | panic m => simp [hr1, Res.bind] at hs
  · intro i h clock ok hget hpc hd
    obtain ⟨e, rest, hd⟩ := List.exists_cons_of_ne_nil hd
    refine ⟨{ s with
        handlers := s.handlers.set i
          { h with pc := .waitSecond, err := e, done := rest, client := h.client.Close,
                   target := h.target.map Sock.Close,
                   ops := h.ops ++ [.recvDone, .clientClose, .targetClose] } },
      { h with pc := .waitSecond, err := e, done := rest, client := h.client.Close,
               target := h.target.map Sock.Close,
               ops := h.ops ++ [.recvDone, .clientClose, .targetClose] },
      ?_, getElem?_set_self s.handlers i h _ hget, rfl, rfl, rfl, rfl⟩
    rw [run_handlerActs cfg clock ok i 3 s h hget,
      handlerRun_first_report cfg clock ok s.r h e rest hpc hd]
    rfl

/-- Witness of C6: after the relayed connection, whose copies reported `5` and
`7` bytes, `bytesRx` is `5` and `bytesTx` is `7`, the sums over the completed
connections. -/
theorem bytes_accounting_witness :
    ∃ s, run DefaultConfig System.init relayedConnection = .ok s ∧
      s.r.bytesRx = 5 ∧ s.r.bytesTx = 7 ∧
      s.r.bytesRx = total completedRx s.handlers % two64 ∧
      s.r.bytesTx = total completedTx s.handlers % two64 :=
  ⟨_, rfl, by decide, by decide,
    (bytes_accounting DefaultConfig _ ⟨relayedConnection, rfl⟩).2.2.2.2.2 (by decide)⟩

/-- Witness of C7: after the relayed connection, in which the target-to-client
copy reported first, the handler has performed the operations of `successOps`
and closed both sockets. -/
theorem sockets_closed_together_witness :
    ∃ s h t, run DefaultConfig System.init relayedConnection = .ok s ∧ s.handlers = [h] ∧
      h.target = some t ∧ h.pc = .done ∧
      h.client.closeCalls = 2 ∧ t.closeCalls = 2 ∧ h.ops = successOps DefaultConfig :=
  ⟨_, _, _, rfl, rfl, rfl, rfl,
    ((sockets_closed_together DefaultConfig _ ⟨relayedConnection, rfl⟩).1 _
      (List.mem_singleton.mpr rfl) _ rfl).2.2.2.2.2 rfl⟩

end GateRelay
